import Mathlib

/-!
Verification development for the `recherche-entreprises` repository
(`src/recherche_entreprises.py` and `src/app.py`).

The Python code is shallowly embedded: dynamically-typed dictionary values
become the inductive `FVal` (None / string / int) with Python truthiness,
`dict.get` results become structure fields (one field per key the code reads,
holding exactly the value `.get` would return, with the code's default),
HTTP interactions become explicit response inputs, and the in-place list
mutations of the enrichment step become pure list transformations.
-/

/-- Value of a dictionary field as the Python code reads it: `None` (key absent
or null), a string, or an integer.  Python truthiness on these: `None` and `""`
and `0` are falsy. -/
inductive FVal where
  | vNone : FVal
  | vStr : String → FVal
  | vInt : Int → FVal
deriving DecidableEq, Repr

/-- Python truthiness of an `FVal`. -/
def FVal.truthy : FVal → Bool
  | .vNone => false
  | .vStr s => s ≠ ""
  | .vInt n => n ≠ 0

/-- Python `a or b` on field values: `a` if truthy, else `b`. -/
def pyOr (a b : FVal) : FVal := if a.truthy then a else b

/-- Python `str(...)` on a field value (`str(None) = "None"`). -/
def pyStr : FVal → String
  | .vNone => "None"
  | .vStr s => s
  | .vInt n => toString n

/-- ASCII whitespace characters removed by Python `str.strip()` on the ASCII
strings this code handles. -/
def isPySpace (c : Char) : Bool :=
  c = ' ' || c = '\t' || c = '\n' || c = '\x0d' || c = '\x0c' || c = '\x0b'

/-- Trim characters satisfying `p` from both ends of a list. -/
def trimBy (p : Char → Bool) (l : List Char) : List Char :=
  ((l.dropWhile p).reverse.dropWhile p).reverse

/-- Python `str.strip()` (whitespace from both ends). -/
def pyStrip (s : String) : String := String.mk (trimBy isPySpace s.toList)

/-- Python `str.strip(chars)` (any of the given characters from both ends),
as in `.strip(", ")` and `.strip("-")`. -/
def pyStripChars (chars : List Char) (s : String) : String :=
  String.mk (trimBy (fun c => chars.contains c) s.toList)

/-- Python `str.lower()` restricted to ASCII letters (the code applies it after
an ASCII filter or to ASCII API data). -/
def pyLower (s : String) : String := String.mk (s.toList.map Char.toLower)

/-- Python `str.upper()` restricted to ASCII letters. -/
def pyUpper (s : String) : String := String.mk (s.toList.map Char.toUpper)

/-- ASCII decimal digit. -/
def isDigitChar (c : Char) : Bool := '0' ≤ c && c ≤ '9'

/-- Python `str.isdigit()` over ASCII digits: non-empty and all digits. -/
def pyIsDigit (s : String) : Bool :=
  s.toList ≠ [] && s.toList.all isDigitChar

/-- Value of a non-empty list of ASCII digits. -/
def digitsToNat (l : List Char) : Nat :=
  l.foldl (fun acc c => acc * 10 + (c.toNat - '0'.toNat)) 0

/-- Python `int(s)` on a string: optional surrounding whitespace, optional
sign, then at least one digit; any other shape raises `ValueError`, modelled
as `none`. -/
def pyInt (s : String) : Option Int :=
  match trimBy isPySpace s.toList with
  | [] => none
  | '+' :: rest =>
      if rest ≠ [] && rest.all isDigitChar then some (Int.ofNat (digitsToNat rest)) else none
  | '-' :: rest =>
      if rest ≠ [] && rest.all isDigitChar then some (-(Int.ofNat (digitsToNat rest))) else none
  | l =>
      if l.all isDigitChar then some (Int.ofNat (digitsToNat l)) else none

/-- Python `s.split(sep)` for a one-character separator, on the character
list: `cur` accumulates the current segment in reverse.  `"".split("-")`
gives `[""]`, and separators at the ends give empty segments, as in
Python. -/
def splitOnChar (sep : Char) : List Char → List Char → List (List Char)
  | [], cur => [cur.reverse]
  | c :: rest, cur =>
      if c = sep then cur.reverse :: splitOnChar sep rest []
      else splitOnChar sep rest (c :: cur)

/-- Python slicing `l[:n]` for an arbitrary integer `n` (negative counts from
the end). -/
def pyTake {α : Type} (n : Int) (l : List α) : List α :=
  if 0 ≤ n then l.take n.toNat else l.take (l.length - (-n).toNat)

/-- Python slicing `l[n:]` for an arbitrary integer `n`. -/
def pyDrop {α : Type} (n : Int) (l : List α) : List α :=
  if 0 ≤ n then l.drop n.toNat else l.drop (l.length - (-n).toNat)

/-- First truthy (non-empty) string among the options, else `""`: the shape of
the `x or y or ""` chains on optional strings. -/
def firstNonEmptyStr : List (Option String) → String
  | [] => ""
  | o :: rest =>
      match o with
      | some s => if s ≠ "" then s else firstNonEmptyStr rest
      | none => firstNonEmptyStr rest

/-!
Region/sector normalizer and slug (`src/recherche_entreprises.py`, lines
28-78): `unicodedata.normalize("NFD", s)`, the ASCII filter, `_normalize`,
`_slugify`, `REGIONS_INSEE` and `region_to_code`.
-/

/-- Canonical (NFD) decomposition of a character, for the Latin letters with
diacritics that occur in French region and company names; every other
character decomposes to itself.  The combining marks produced here are all
non-ASCII, so the subsequent ASCII filter removes them, exactly as
`unicodedata.normalize("NFD", s).encode("ascii", "ignore")` does. -/
def nfdChar (c : Char) : List Char :=
  match c with
  | 'à' => ['a', '̀'] | 'á' => ['a', '́'] | 'â' => ['a', '̂'] | 'ä' => ['a', '̈']
  | 'ç' => ['c', '̧']
  | 'è' => ['e', '̀'] | 'é' => ['e', '́'] | 'ê' => ['e', '̂'] | 'ë' => ['e', '̈']
  | 'ì' => ['i', '̀'] | 'í' => ['i', '́'] | 'î' => ['i', '̂'] | 'ï' => ['i', '̈']
  | 'ò' => ['o', '̀'] | 'ó' => ['o', '́'] | 'ô' => ['o', '̂'] | 'ö' => ['o', '̈']
  | 'ù' => ['u', '̀'] | 'ú' => ['u', '́'] | 'û' => ['u', '̂'] | 'ü' => ['u', '̈']
  | 'ÿ' => ['y', '̈']
  | 'À' => ['A', '̀'] | 'Á' => ['A', '́'] | 'Â' => ['A', '̂'] | 'Ä' => ['A', '̈']
  | 'Ç' => ['C', '̧']
  | 'È' => ['E', '̀'] | 'É' => ['E', '́'] | 'Ê' => ['E', '̂'] | 'Ë' => ['E', '̈']
  | 'Î' => ['I', '̂'] | 'Ï' => ['I', '̈']
  | 'Ô' => ['O', '̂'] | 'Ö' => ['O', '̈']
  | 'Ù' => ['U', '̀'] | 'Û' => ['U', '̂'] | 'Ü' => ['U', '̈']
  | _ => [c]

/-- `unicodedata.normalize("NFD", s).encode("ascii", "ignore").decode()`:
decompose, then drop every non-ASCII character. -/
def nfdAscii (l : List Char) : List Char :=
  (l.flatMap nfdChar).filter (fun c => c.toNat < 128)

/-- `_normalize` (line 52): strip accents, lowercase, strip whitespace. -/
def _normalize (s : String) : String :=
  pyStrip (pyLower (String.mk (nfdAscii s.toList)))

/-- Lower-case ASCII letter or digit: the character class `[a-z0-9]` of the
regex in `_slugify`. -/
def isAlnumLower (c : Char) : Bool :=
  ('a' ≤ c && c ≤ 'z') || ('0' ≤ c && c ≤ '9')

/-- `re.sub(r"[^a-z0-9]+", "-", s)`: replace each maximal run of characters
outside `[a-z0-9]` by a single hyphen.  The flag records whether the
previously emitted character was the hyphen for a still-open run. -/
def collapseRuns : List Char → Bool → List Char
  | [], _ => []
  | c :: rest, lastHyph =>
      if isAlnumLower c then c :: collapseRuns rest false
      else if lastHyph then collapseRuns rest true
      else '-' :: collapseRuns rest true

/-- `_slugify` (lines 57-62): NFD + ASCII filter, lowercase, collapse runs of
non-alphanumerics to `-`, strip leading/trailing `-`. -/
def _slugify (s : String) : String :=
  String.mk (trimBy (fun c => c = '-')
    (collapseRuns ((nfdAscii s.toList).map Char.toLower) false))

/-- `REGIONS_INSEE` (lines 28-49): region names → INSEE codes, in source
order. -/
def REGIONS_INSEE : List (String × String) :=
  [("ile-de-france", "11"),
   ("centre-val de loire", "24"),
   ("centre-val-de-loire", "24"),
   ("bourgogne-franche-comte", "27"),
   ("bourgogne-franche-comté", "27"),
   ("normandie", "28"),
   ("hauts-de-france", "32"),
   ("grand est", "44"),
   ("grand-est", "44"),
   ("pays de la loire", "52"),
   ("pays-de-la-loire", "52"),
   ("bretagne", "53"),
   ("nouvelle-aquitaine", "75"),
   ("occitanie", "76"),
   ("auvergne-rhone-alpes", "84"),
   ("auvergne-rhône-alpes", "84"),
   ("provence-alpes-cote d'azur", "93"),
   ("provence-alpes-côte d'azur", "93"),
   ("paca", "93"),
   ("corse", "94")]

/-- `region_to_code` (lines 65-78): a purely numeric value (after stripping)
is returned stripped; otherwise look the normalized name up in
`REGIONS_INSEE`; otherwise return the input unchanged. -/
def region_to_code (region : String) : String :=
  if pyIsDigit (pyStrip region) then pyStrip region
  else
    match REGIONS_INSEE.find? (fun kv => _normalize kv.1 = _normalize region) with
    | some kv => kv.2
    | none => region

/-!
Raw Pappers records and the field extractor
(`src/recherche_entreprises.py`, lines 299-424).  Each structure field holds
the value the code's `dict.get` for that key returns (`FVal.vNone` for an
absent or null key; `String` fields are shown with the code's `""` default
already applied).  An absent or empty `siege` dictionary is `none`: every
`get` on an empty dictionary returns the same default as on a missing one,
and both are falsy in the `or` chain that selects the siege.
-/

/-- The `siege` sub-record, with the keys read in lines 308-320 and 347. -/
structure Siege where
  numero_voie : FVal
  indice_repetition : FVal
  type_voie : FVal
  libelle_voie : FVal
  complement_adresse : FVal
  code_postal : FVal
  ville : FVal
  domaine_url : FVal
deriving DecidableEq, Repr

/-- One entry of the detail record's `finances` list (keys read in lines
327 and 337). -/
structure Finance where
  chiffre_affaires : FVal
  effectif : FVal
deriving DecidableEq, Repr

/-- A representative / dirigeant entry.  `prenom`, `nom`, `nom_complet` and
the two birth-date keys are read through `.get(k, "")` followed by string
operations, so they are modelled as the resulting strings; `age` and
`personne_morale` keep their raw `.get` results. -/
structure Dirigeant where
  personne_morale : Bool
  prenom : String
  nom : String
  nom_complet : String
  age : FVal
  date_de_naissance : String
  date_de_naissance_formate : String
deriving DecidableEq, Repr

/-- A search-endpoint hit (`company` in the source), with the keys
`extract_company_info` reads from it. -/
structure SearchRecord where
  siren : String
  nom_entreprise : FVal
  denomination : FVal
  siege : Option Siege
  chiffre_affaires : FVal
  effectifs_finances : FVal
  effectif : FVal
  tranche_effectif : FVal
  domaine_url : FVal
  dirigeants : List Dirigeant
deriving DecidableEq, Repr

/-- A detail-endpoint record (`details` in the source), with the keys
`extract_company_info` reads from it. -/
structure DetailRecord where
  siege : Option Siege
  finances : List Finance
  effectif : FVal
  tranche_effectif : FVal
  domaine_url : FVal
  representants : List Dirigeant
  dirigeants : List Dirigeant
deriving DecidableEq, Repr

/-- The dictionary returned by `extract_company_info` (lines 403-424).  The
`internal_*` fields model the underscore-prefixed keys (`_prenom`, `_nom`,
`_domaine`, `_nom_entreprise_raw`, `_effectifs_finances`).
`internal_resultat_net` models `c.get("_resultat_net")`, a key
`extract_company_info` never writes, so the extractor always sets it to
`vNone`; it is carried so that `_filter_resultat_net` can be stated on the
same record type. -/
structure CompanyInfo where
  nom_entreprise : FVal
  siren : String
  chiffre_affaires : FVal
  effectif : FVal
  adresse : String
  site_web : FVal
  nom_dirigeant : String
  age_dirigeant : FVal
  email_dirigeant : String
  mobile_dirigeant : String
  pappers_url : String
  internal_prenom : String
  internal_nom : String
  internal_domaine : FVal
  internal_nom_entreprise_raw : FVal
  internal_effectifs_finances : FVal
  internal_resultat_net : FVal
deriving DecidableEq, Repr

/-- A `Siege` whose every `get` returns the code's default, standing for the
`or {}` fallback of line 308: the keys read with a `""` default
(`complement_adresse`, `code_postal`, `ville`) yield `""`, the rest `None`. -/
def emptySiege : Siege :=
  ⟨.vNone, .vNone, .vNone, .vNone, .vStr "", .vStr "", .vStr "", .vNone⟩

/-- `(details.get("finances") or [{}])[0]` (lines 327 and 337 and 422). -/
def financesHead (d : DetailRecord) : Finance :=
  d.finances.headD ⟨.vNone, .vNone⟩

/-- The dirigeant-selection loop (lines 360-367): first entry that is not a
personne morale, else the first entry, else none. -/
def pickDirigeant (l : List Dirigeant) : Option Dirigeant :=
  match l.find? (fun d => !d.personne_morale) with
  | some d => some d
  | none => l.head?

/-- The age computation of lines 380-395, with `datetime.now().year` passed
in as `year`.  Returns the value `age_dirigeant` holds at line 396: the
provided `age` if truthy; else `year - birth_year` parsed from
`date_de_naissance` (or, if that is empty, `date_de_naissance_formate`),
splitting on `-` when the string contains one and on `/` otherwise; on a
parse failure the original (falsy) `age` value is kept.
`dobOf` is the birth-date selection of line 384:
`dirigeant.get("date_de_naissance", "") or
dirigeant.get("date_de_naissance_formate", "")`. -/
def dobOf (dg : Dirigeant) : String :=
  if dg.date_de_naissance ≠ "" then dg.date_de_naissance
  else dg.date_de_naissance_formate

/-- The age value `extract_company_info` computes for the chosen dirigeant
(lines 380-395); see `dobOf`. -/
def extractAge (dg : Dirigeant) (year : Int) : FVal :=
  if dg.age.truthy then dg.age
  else
    let dob := dobOf dg
    if dob ≠ "" then
      let birth :=
        if dob.toList.contains '-' then
          pyInt (String.mk ((splitOnChar '-' dob.toList []).headD []))
        else pyInt (String.mk ((splitOnChar '/' dob.toList []).getLastD []))
      match birth with
      | some b => .vInt (year - b)
      | none => dg.age
    else dg.age

/-- The dirigeant-list selection of lines 354-359:
`details.get("representants") or details.get("dirigeants") or
company.get("dirigeants") or []` (an empty list is falsy). -/
def effDirigeants (company : SearchRecord) (details : DetailRecord) :
    List Dirigeant :=
  if details.representants ≠ [] then details.representants
  else if details.dirigeants ≠ [] then details.dirigeants
  else company.dirigeants

/-- Line 397: `slug = _slugify(nom) if nom else ""`. -/
def slugOfNom (nom : FVal) : String :=
  if nom.truthy then _slugify (pyStr nom) else ""

/-- The address assembly of lines 308-320. -/
def buildAdresse (siege : Siege) : String :=
  let parts :=
    ([siege.numero_voie, siege.indice_repetition, siege.type_voie,
      siege.libelle_voie].filter FVal.truthy).map (fun v => pyStrip (pyStr v))
  let ligne := String.intercalate " " parts
  let ligne :=
    if siege.complement_adresse.truthy then
      pyStripChars [',', ' '] (pyStr siege.complement_adresse ++ ", " ++ ligne)
    else ligne
  let cpVille := pyStrip (pyStr siege.code_postal ++ " " ++ pyStr siege.ville)
  String.intercalate ", " ([ligne, cpVille].filter (fun s => s ≠ ""))

/-- `extract_company_info` (lines 299-424), with `datetime.now().year` passed
in as `year`. -/
def extract_company_info (company : SearchRecord) (details : DetailRecord)
    (year : Int) : CompanyInfo :=
  let siren := company.siren
  let nom := pyOr company.nom_entreprise company.denomination
  let siege := (details.siege.orElse (fun _ => company.siege)).getD emptySiege
  let adresse := buildAdresse siege
  let ca := pyOr company.chiffre_affaires
    (pyOr (financesHead details).chiffre_affaires (.vStr ""))
  let effectif := pyOr company.effectifs_finances
    (pyOr details.effectif
      (pyOr company.effectif
        (pyOr (financesHead details).effectif
          (pyOr details.tranche_effectif
            (pyOr company.tranche_effectif (.vStr ""))))))
  let site_web := pyOr details.domaine_url
    (pyOr company.domaine_url (pyOr siege.domaine_url (.vStr "")))
  let dirigeant := pickDirigeant (effDirigeants company details)
  let prenom_dir := match dirigeant with
    | some dg => pyStrip dg.prenom
    | none => ""
  let nom_dir := match dirigeant with
    | some dg => pyStrip dg.nom
    | none => ""
  let nom_dirigeant := match dirigeant with
    | some dg =>
        if pyStrip dg.nom_complet ≠ "" then pyStrip dg.nom_complet
        else String.intercalate " "
          ([prenom_dir, nom_dir].filter (fun s => s ≠ ""))
    | none => ""
  let age_dirigeant := match dirigeant with
    | some dg => extractAge dg year
    | none => .vStr ""
  let slug := slugOfNom nom
  let pappers_url :=
    if siren ≠ "" && slug ≠ "" then
      "https://www.pappers.fr/entreprise/" ++ slug ++ "-" ++ siren
    else ""
  { nom_entreprise := nom
    siren := siren
    chiffre_affaires := ca
    effectif := effectif
    adresse := adresse
    site_web := site_web
    nom_dirigeant := nom_dirigeant
    age_dirigeant := age_dirigeant
    email_dirigeant := ""
    mobile_dirigeant := ""
    pappers_url := pappers_url
    internal_prenom := prenom_dir
    internal_nom := nom_dir
    internal_domaine := site_web
    internal_nom_entreprise_raw := nom
    internal_effectifs_finances :=
      pyOr company.effectifs_finances (financesHead details).effectif
    internal_resultat_net := .vNone }

/-- An all-default search hit, for concrete evaluations. -/
def emptySearchRecord : SearchRecord :=
  ⟨"", .vNone, .vStr "", none, .vNone, .vNone, .vNone, .vNone, .vNone, []⟩

/-- An all-default detail record (`details = {}`). -/
def emptyDetailRecord : DetailRecord :=
  ⟨none, [], .vNone, .vNone, .vNone, [], []⟩

/-!
Server-side numeric-range post-filters (`src/app.py`, lines 132-173) and the
`/api/search` criteria validation (lines 184-199).
-/

/-- The body of the two filter loops: `int(val)` on the stored value, keeping
the record when the conversion fails (`TypeError`/`ValueError`). -/
def pyIntOfFVal : FVal → Option Int
  | .vNone => none
  | .vInt n => some n
  | .vStr s => pyInt s

/-- Keep/drop decision shared by both filters (the loop bodies of lines
137-150 and 159-172), applied to the value of the filtered key. -/
def rangeKeep (minVal maxVal : Option Int) (val : FVal) : Bool :=
  match val with
  | .vNone => true
  | v =>
      match pyIntOfFVal v with
      | none => true
      | some n =>
          !(match minVal with | some m => decide (n < m) | none => false)
          && !(match maxVal with | some m => decide (m < n) | none => false)

/-- `_filter_effectif` (lines 132-151): filter on `_effectifs_finances`,
identity when no bound is given, keeping records with no known value. -/
def _filter_effectif (companies : List CompanyInfo)
    (minVal maxVal : Option Int) : List CompanyInfo :=
  if minVal = none ∧ maxVal = none then companies
  else companies.filter
    (fun c => rangeKeep minVal maxVal c.internal_effectifs_finances)

/-- `_filter_resultat_net` (lines 154-173): the same loop on `_resultat_net`. -/
def _filter_resultat_net (companies : List CompanyInfo)
    (minVal maxVal : Option Int) : List CompanyInfo :=
  if minVal = none ∧ maxVal = none then companies
  else companies.filter
    (fun c => rangeKeep minVal maxVal c.internal_resultat_net)

/-- The JSON body of a `/api/search` request (lines 184-221): one field per
key the handler reads.  `secteur` holds `data.get("secteur", "")` (a string);
the remaining fields hold the raw `data.get(k)` results. -/
structure SearchRequest where
  secteur : String
  region : FVal
  departement : FVal
  ca_min : FVal
  ca_max : FVal
  ville : FVal
  nom_entreprise : FVal
  nom_dirigeant : FVal
  prenom_dirigeant : FVal
  effectif_min : FVal
  effectif_max : FVal
  resultat_net_min : FVal
  resultat_net_max : FVal
  age_min_dirigeant : FVal
deriving DecidableEq, Repr

/-- The validation of `api_search` (lines 188-198): the `any([...])` over the
nine checked values, with `secteur` stripped first (line 185). -/
def validateSearch (d : SearchRequest) : Bool :=
  pyStrip d.secteur ≠ "" || d.region.truthy || d.departement.truthy
    || d.ca_min.truthy || d.ca_max.truthy || d.ville.truthy
    || d.nom_entreprise.truthy || d.nom_dirigeant.truthy
    || d.prenom_dirigeant.truthy

/-- Outcome of the validation step of `api_search`: the 400 validation error
of line 199, or proceeding to the remote search of line 226. -/
inductive ApiSearchStep where
  | validationError : ApiSearchStep
  | proceeds : ApiSearchStep
deriving DecidableEq, Repr

/-- The decision `api_search` takes before any remote call (lines 188-199):
reject with a validation error when no checked field is present, otherwise
issue the search. -/
def apiSearchStep (d : SearchRequest) : ApiSearchStep :=
  if validateSearch d then .proceeds else .validationError

/-- Modelled from the spec (claim C1's wording): at least one of sector,
region, department, revenue bounds, city, or executive name is present.
This is the acceptance set the claim asserts; it is compared against
`validateSearch`, which is translated from the code. -/
def claimRequiredFieldPresent (d : SearchRequest) : Bool :=
  pyStrip d.secteur ≠ "" || d.region.truthy || d.departement.truthy
    || d.ca_min.truthy || d.ca_max.truthy || d.ville.truthy
    || d.nom_dirigeant.truthy || d.prenom_dirigeant.truthy

/-- An all-null search request. -/
def emptySearchRequest : SearchRequest :=
  ⟨"", .vNone, .vNone, .vNone, .vNone, .vNone, .vNone, .vNone, .vNone,
   .vNone, .vNone, .vNone, .vNone, .vNone⟩

/-!
Paginated registry search (`search_pappers`, `src/recherche_entreprises.py`
lines 180-276).  The search criteria only shape the outgoing query string;
the control flow of the loop depends only on `max_resultats` and on the
sequence of page responses, which is therefore passed in as an oracle
`pages : Nat → PageResp` (`pages k` answers the request for Pappers page
`k + 1`).  Raw company records are an arbitrary type `α`. -/

/-- One page response: an `HTTPError`/`RequestException` (both `break`), or a
JSON body with `resultats` and `total` (lines 250-258). -/
inductive PageResp (α : Type) where
  | fail : PageResp α
  | ok : List α → Int → PageResp α

/-- The `while len(companies) < max_resultats` loop of lines 195-274.  Every
exit path of the source funnels into `return companies[:max_resultats]`
(line 276), here `pyTake maxR`.  `fuel` only bounds the recursion: each
recursive call appends a full page (at least one record, since an empty page
breaks first), so with the fuel chosen in `search_pappers` the `0` case is
never reached through a run that the Python loop would continue. -/
def searchLoop {α : Type} (pages : Nat → PageResp α) (maxR parPage : Int)
    (page : Nat) (acc : List α) : Nat → List α
  | 0 => pyTake maxR acc
  | fuel + 1 =>
      if (acc.length : Int) < maxR then
        match pages page with
        | .fail => pyTake maxR acc
        | .ok results total =>
            if results.isEmpty then pyTake maxR acc
            else
              let acc' := acc ++ results
              if min total maxR - (acc'.length : Int) ≤ 0
                  ∨ (results.length : Int) < parPage then
                pyTake maxR acc'
              else searchLoop pages maxR parPage (page + 1) acc' fuel
      else pyTake maxR acc

/-- `search_pappers` (lines 180-276): paginate with page size
`min(100, max_resultats)`, truncating the accumulated list to
`max_resultats`. -/
def search_pappers {α : Type} (maxResultats : Int)
    (pages : Nat → PageResp α) : List α :=
  searchLoop pages maxResultats (min 100 maxResultats) 0 []
    (maxResultats.toNat + 1)

/-- The `resultats` list of a page response (empty for a failed request). -/
def pageResults {α : Type} : PageResp α → List α
  | .fail => []
  | .ok results _ => results

/-- The ordered concatenation of the `resultats` of pages `k, …, k+m-1`. -/
def concatResults {α : Type} (pages : Nat → PageResp α) (k m : Nat) : List α :=
  (List.range m).flatMap (fun j => pageResults (pages (k + j)))

/-- A page response holding at least one result. -/
def okNonempty {α : Type} : PageResp α → Prop
  | .fail => False
  | .ok results _ => results ≠ []

/-!
Fullenrich bulk enrichment, web path (`_do_fullenrich_enrich`, `src/app.py`
lines 338-420).  The POST and GET responses are inputs;
`polls k` is the response to the `(k+1)`-th status poll.
-/

/-- `FULLENRICH_POLL_MAX` (`src/recherche_entreprises.py` line 103). -/
def FULLENRICH_POLL_MAX : Nat := 40

/-- One contact submitted for enrichment (`{prenom, nom, domain,
company_name}`, each read through `.get(k, "")`). -/
structure Contact where
  prenom : String
  nom : String
  domain : String
  company_name : String
deriving DecidableEq, Repr

/-- The `contact_info` of one result record: `(ci.get(k) or {}).get("email")`
for the two email objects (so `none` when the object or its `email` key is
missing), and `(ci.get("most_probable_phone") or {}).get("number", "")` for
the phone. -/
structure PollRecord where
  work_email : Option String
  personal_email : Option String
  phone_number : String
deriving DecidableEq, Repr

/-- The JSON body of a poll response: `status` (read with default
`"UNKNOWN"`), `data`, and `cost.credits` (read with default `0`). -/
structure PollBody where
  status : Option String
  data : List PollRecord
  credits : Int
deriving Repr

/-- A poll HTTP response: status code plus body. -/
structure PollResp where
  code : Int
  body : PollBody
deriving Repr

/-- The JSON body of the bulk-submit response: the raw `enrichment_id` value
and the `id` value read with default `""`. -/
structure SubmitBody where
  enrichment_id : FVal
  idField : FVal
deriving DecidableEq, Repr

/-- `resp.json().get("enrichment_id") or resp.json().get("id", "")`
(line 379). -/
def jobIdOf (b : SubmitBody) : FVal := pyOr b.enrichment_id b.idField

/-- `result.get("status", "UNKNOWN").upper()` (line 398). -/
def statusOf (b : PollBody) : String := pyUpper (b.status.getD "UNKNOWN")

/-- One entry of the `enriched` result list (line 410). -/
structure EnrichedEntry where
  index : Nat
  email : String
  mobile : String
deriving DecidableEq, Repr

/-- Email selection of lines 404-408: work email, else personal email,
else `""`. -/
def emailOf (r : PollRecord) : String :=
  firstNonEmptyStr [r.work_email, r.personal_email]

/-- The `FINISHED` mapping of lines 401-410: one entry per result record, in
order, keyed by its position. -/
def mkEnriched (data : List PollRecord) : List EnrichedEntry :=
  data.enum.map (fun p => ⟨p.1, emailOf p.2, p.2.phone_number⟩)

/-- The outcome of `_do_fullenrich_enrich`: the returned dictionary, or one
of the raised errors.  `errNoId` is the `ValueError` of line 381;
`errCreditsInsufficient` the `ValueError` of line 392 (poll status 402);
`errClient` the `ValueError` of line 394 (other 4xx); `errHTTP` the
`HTTPError` that `raise_for_status` raises on a remaining error code
(submit, line 378, or poll, line 395); `errInterrupted` the `ValueError` of
line 418 (a terminal status); `errTimeout` the `TimeoutError` of line 420. -/
inductive EnrichOutcome where
  | success : List EnrichedEntry → Int → Nat → EnrichOutcome
  | errNoId : EnrichOutcome
  | errCreditsInsufficient : EnrichOutcome
  | errClient : Int → EnrichOutcome
  | errHTTP : Int → EnrichOutcome
  | errInterrupted : String → EnrichOutcome
  | errTimeout : EnrichOutcome
deriving Repr

/-- The polling loop of lines 384-420.  The second component counts the GET
polls issued.  `k` is the number already issued, `fuel` the attempts left
(`FULLENRICH_POLL_MAX` at the top level, so the `0` case is line 420's
timeout). -/
def fePollLoop (polls : Nat → PollResp) (nContacts : Nat) :
    Nat → Nat → EnrichOutcome × Nat
  | k, 0 => (.errTimeout, k)
  | k, fuel + 1 =>
      let p := polls k
      if p.code = 402 then (.errCreditsInsufficient, k + 1)
      else if 400 ≤ p.code ∧ p.code < 500 then (.errClient p.code, k + 1)
      else if 400 ≤ p.code ∧ p.code < 600 then (.errHTTP p.code, k + 1)
      else
        let st := statusOf p.body
        if st = "FINISHED" then
          (.success (mkEnriched p.body.data) p.body.credits nContacts, k + 1)
        else if st = "CANCELED" ∨ st = "CREDITS_INSUFFICIENT"
            ∨ st = "RATE_LIMIT" then
          (.errInterrupted st, k + 1)
        else fePollLoop polls nContacts (k + 1) fuel

/-- `_do_fullenrich_enrich` (lines 338-420): submit, check the job id, poll
up to `FULLENRICH_POLL_MAX` times.  `submitCode` is the POST's status code
(`resp.raise_for_status()`, line 378); on success the outcome carries the
enriched list, `cost.credits`, and `len(contacts)`. -/
def doFullenrichEnrich (contacts : List Contact) (submitCode : Int)
    (submitBody : SubmitBody) (polls : Nat → PollResp) :
    EnrichOutcome × Nat :=
  if 400 ≤ submitCode ∧ submitCode < 600 then (.errHTTP submitCode, 0)
  else if (jobIdOf submitBody).truthy then
    fePollLoop polls contacts.length 0 FULLENRICH_POLL_MAX
  else (.errNoId, 0)

/-!
Fullenrich bulk enrichment, CLI path (`enrich_with_fullenrich`,
`src/recherche_entreprises.py` lines 447-606) and the slice of `main` that
applies it (lines 698-704).  The credit display is output-only and is not
modelled; the interactive confirmation, the POST result and the poll
responses are inputs.  The in-place writes to `email_dirigeant` and
`mobile_dirigeant` (lines 589-590) become a pure list update.
-/

/-- Result of the bulk-submit POST of lines 519-533: an `HTTPError`, another
`RequestException`, or a 2xx body. -/
inductive SubmitResult where
  | httpError : Int → SubmitResult
  | netError : SubmitResult
  | ok : SubmitBody → SubmitResult

/-- One CLI poll attempt's outcome at the network level: a
`RequestException` (lines 561-563, `continue`), or a response with status
code and body.  A 5xx response is a `resp` whose `raise_for_status` inside
the same `try` also lands in the `continue`. -/
inductive CliPoll where
  | netErr : CliPoll
  | resp : Int → PollBody → CliPoll

/-- Lines 589-590: overwrite the two enrichment fields of one record. -/
def setContactFields (c : CompanyInfo) (e m : String) : CompanyInfo :=
  { c with email_dirigeant := e, mobile_dirigeant := m }

/-- `companies_info[i]["email_dirigeant"] = …` as a pure list update. -/
def setContactAt (l : List CompanyInfo) (i : Nat) (e m : String) :
    List CompanyInfo :=
  match l.get? i with
  | some c => l.set i (setContactFields c e m)
  | none => l

/-- Apply the recorded `(original index, email, mobile)` writes in order. -/
def applyAssigns (l : List CompanyInfo) :
    List (Nat × String × String) → List CompanyInfo
  | [] => l
  | (i, e, m) :: rest => applyAssigns (setContactAt l i e m) rest

/-- The `FINISHED` branch of lines 568-593: pair each result record, by
position, with the original index of the corresponding submitted contact
(`zip` truncates at the shorter list, like the `j >= len(to_enrich)` break),
and extract its email and mobile. -/
def mkAssigns (idxs : List Nat) (records : List PollRecord) :
    List (Nat × String × String) :=
  (idxs.zip records).map (fun p => (p.1, emailOf p.2, p.2.phone_number))

/-- The CLI polling loop of lines 544-604: `k` polls already issued, `fuel`
attempts left; the `0` case is the `for`-`else` timeout of line 604, which
returns the list unchanged. -/
def cliPollLoop (polls : Nat → CliPoll) (companies : List CompanyInfo)
    (idxs : List Nat) : Nat → Nat → List CompanyInfo
  | _, 0 => companies
  | k, fuel + 1 =>
      match polls k with
      | .netErr => cliPollLoop polls companies idxs (k + 1) fuel
      | .resp code body =>
          if code = 402 then companies
          else if 400 ≤ code ∧ code < 500 then companies
          else if 400 ≤ code ∧ code < 600 then
            cliPollLoop polls companies idxs (k + 1) fuel
          else
            let st := statusOf body
            if st = "FINISHED" then
              applyAssigns companies (mkAssigns idxs body.data)
            else if st = "CANCELED" ∨ st = "CREDITS_INSUFFICIENT"
                ∨ st = "RATE_LIMIT" then companies
            else cliPollLoop polls companies idxs (k + 1) fuel

/-- `enrich_with_fullenrich` (lines 447-606).  `confirm` is the
`input(...)` answer (`none` for `KeyboardInterrupt`/`EOFError`); contacts
are the records with a non-empty `_nom` or `_prenom` (line 458). -/
def enrich_with_fullenrich (companies_info : List CompanyInfo)
    (confirm : Option String) (submit : SubmitResult)
    (polls : Nat → CliPoll) : List CompanyInfo :=
  if companies_info.isEmpty then companies_info
  else
    let toEnrich := companies_info.enum.filter
      (fun p => p.2.internal_nom ≠ "" || p.2.internal_prenom ≠ "")
    if toEnrich.isEmpty then companies_info
    else
      match confirm with
      | none => companies_info
      | some ans =>
          let a := pyLower (pyStrip ans)
          if a = "o" ∨ a = "oui" ∨ a = "y" ∨ a = "yes" then
            match submit with
            | .httpError _ => companies_info
            | .netError => companies_info
            | .ok body =>
                if (jobIdOf body).truthy then
                  cliPollLoop polls companies_info (toEnrich.map Prod.fst) 0
                    FULLENRICH_POLL_MAX
                else companies_info
          else companies_info

/-- The enrichment step of `main` (lines 698-704): when
`max_enrichissements > 0`, enrich the first `max_enrichissements` records
and reattach the rest unchanged; otherwise skip enrichment. -/
def mainEnrichStep (maxEnrichissements : Int)
    (companies_info : List CompanyInfo) (confirm : Option String)
    (submit : SubmitResult) (polls : Nat → CliPoll) : List CompanyInfo :=
  if 0 < maxEnrichissements then
    enrich_with_fullenrich (pyTake maxEnrichissements companies_info)
        confirm submit polls
      ++ pyDrop maxEnrichissements companies_info
  else companies_info

/-!
Claim-side definitions (written from the spec's words, to be compared with
the definitions translated from the code) and concrete inputs used in
witnesses and counterexamples.
-/

/-- Modelled from the spec (claim C3's wording): the first non-empty value
in a precedence list, else empty. -/
def firstNonEmptyFVal : List FVal → FVal
  | [] => .vStr ""
  | v :: rest => if v.truthy then v else firstNonEmptyFVal rest

/-- Modelled from the spec (claim C4's wording): keep a record exactly when
its relevant value is unknown or unparseable, or its integer value lies
within the given bounds. -/
def claimKeepWorkforce (minVal maxVal : Option Int) (c : CompanyInfo) : Bool :=
  match pyIntOfFVal c.internal_effectifs_finances with
  | none => true
  | some n =>
      (match minVal with | some m => decide (m ≤ n) | none => true)
        && (match maxVal with | some m => decide (n ≤ m) | none => true)

/-- Characters the claim C7 allows in a slug: `[a-z0-9-]`. -/
def isSlugChar (c : Char) : Bool := isAlnumLower c || c = '-'

/-- A poll response on which the loop of `_do_fullenrich_enrich` keeps
polling: no HTTP error, and a status that is neither `FINISHED` nor
terminal. -/
def pollContinues (p : PollResp) : Prop :=
  ¬(400 ≤ p.code ∧ p.code < 600)
    ∧ statusOf p.body ≠ "FINISHED"
    ∧ statusOf p.body ≠ "CANCELED"
    ∧ statusOf p.body ≠ "CREDITS_INSUFFICIENT"
    ∧ statusOf p.body ≠ "RATE_LIMIT"

instance (p : PollResp) : Decidable (pollContinues p) := by
  unfold pollContinues; infer_instance

/-- Equality of two `CompanyInfo` on every field except the two enrichment
outputs `email_dirigeant` and `mobile_dirigeant`. -/
def sameExceptContact (c c' : CompanyInfo) : Prop :=
  c'.nom_entreprise = c.nom_entreprise
    ∧ c'.siren = c.siren
    ∧ c'.chiffre_affaires = c.chiffre_affaires
    ∧ c'.effectif = c.effectif
    ∧ c'.adresse = c.adresse
    ∧ c'.site_web = c.site_web
    ∧ c'.nom_dirigeant = c.nom_dirigeant
    ∧ c'.age_dirigeant = c.age_dirigeant
    ∧ c'.pappers_url = c.pappers_url
    ∧ c'.internal_prenom = c.internal_prenom
    ∧ c'.internal_nom = c.internal_nom
    ∧ c'.internal_domaine = c.internal_domaine
    ∧ c'.internal_nom_entreprise_raw = c.internal_nom_entreprise_raw
    ∧ c'.internal_effectifs_finances = c.internal_effectifs_finances
    ∧ c'.internal_resultat_net = c.internal_resultat_net

instance (c c' : CompanyInfo) : Decidable (sameExceptContact c c') := by
  unfold sameExceptContact; infer_instance

/-- A baseline company record for concrete tests. -/
def baseCompanyInfo : CompanyInfo :=
  { nom_entreprise := .vStr "Acme"
    siren := "123456789"
    chiffre_affaires := .vInt 1000000
    effectif := .vInt 12
    adresse := "1 RUE DE LA PAIX, 75001 PARIS"
    site_web := .vStr "acme.fr"
    nom_dirigeant := "Jean Dupont"
    age_dirigeant := .vInt 58
    email_dirigeant := ""
    mobile_dirigeant := ""
    pappers_url := "https://www.pappers.fr/entreprise/acme-123456789"
    internal_prenom := "Jean"
    internal_nom := "Dupont"
    internal_domaine := .vStr "acme.fr"
    internal_nom_entreprise_raw := .vStr "Acme"
    internal_effectifs_finances := .vInt 12
    internal_resultat_net := .vNone }

/-- Request with only the company name set: the input on which the code's
validation and claim C1's acceptance set disagree. -/
def reqNomEntrepriseOnly : SearchRequest :=
  { emptySearchRequest with nom_entreprise := .vStr "Acme" }

/-- A search hit whose name is present but has an empty slug, and whose
identifier is present: the input on which claim C7's URL condition fails. -/
def searchRecordBangName : SearchRecord :=
  { emptySearchRecord with nom_entreprise := .vStr "!!!", siren := "123456789" }

/-- Dirigeant with no provided age and birth date `1970-03-15`. -/
def dirigeantBorn1970 : Dirigeant :=
  ⟨false, "Jean", "Dupont", "", .vStr "", "1970-03-15", ""⟩

/-- Dirigeant with no provided age and a malformed birth date. -/
def dirigeantBadDob : Dirigeant :=
  ⟨false, "Jean", "Dupont", "", .vStr "", "not-a-date", ""⟩

/-- A non-error poll response with the given status and no data. -/
def pollWith (st : String) : PollResp := ⟨200, ⟨some st, [], 0⟩⟩

/-- One enrichment result record for concrete tests. -/
def pollRecordA : PollRecord := ⟨some "jean@acme.fr", none, "0601020304"⟩

/-- Poll oracle answering `PENDING`, `PENDING`, then `FINISHED` with one
result record. -/
def pollsPPF : Nat → PollResp := fun k =>
  if k < 2 then pollWith "PENDING"
  else ⟨200, ⟨some "FINISHED", [pollRecordA], 1⟩⟩

/-- A submit body carrying a job identifier. -/
def submitBodyOk : SubmitBody := ⟨.vStr "job-1", .vStr ""⟩

/-- A submit body carrying no job identifier. -/
def submitBodyNoId : SubmitBody := ⟨.vNone, .vStr ""⟩

/-- One submitted contact for concrete tests. -/
def contactA : Contact := ⟨"Jean", "Dupont", "acme.fr", ""⟩

/-- CLI poll oracle answering `FINISHED` immediately with one record. -/
def cliPollsFin : Nat → CliPoll :=
  fun _ => .resp 200 ⟨some "FINISHED", [pollRecordA], 1⟩

/-- The only CLI poll response on which the polling loop of
`enrich_with_fullenrich` writes to the list: a non-error HTTP response whose
status is `FINISHED`.  Every other response (network error, 402, other 4xx,
5xx, a terminal status, or a still-pending status) leaves the list untouched
at that step. -/
def cliPollApplies : CliPoll → Prop
  | .netErr => False
  | .resp code body =>
      ¬(400 ≤ code ∧ code < 600) ∧ statusOf body = "FINISHED"

instance : (p : CliPoll) → Decidable (cliPollApplies p)
  | .netErr => isFalse (fun h => h)
  | .resp code body =>
      inferInstanceAs
        (Decidable (¬(400 ≤ code ∧ code < 600) ∧ statusOf body = "FINISHED"))

/-!
Helper lemmas.
-/

theorem dropWhile_eq_self_of_head {α : Type} {p : α → Bool} {l : List α}
    (h : ∀ c ∈ l.head?, p c = false) : l.dropWhile p = l := by
  cases l with
  | nil => rfl
  | cons a t => simp [List.dropWhile_cons, h a rfl]

theorem head?_dropWhile_false {α : Type} {p : α → Bool} {l : List α} {c : α}
    (h : (l.dropWhile p).head? = some c) : p c = false := by
  induction l with
  | nil => simp [List.dropWhile] at h
  | cons a t ih =>
      rw [List.dropWhile_cons] at h
      by_cases hp : p a = true
      · exact ih (by simpa [hp] using h)
      · simp only [hp, if_false] at h
        simp only [List.head?] at h
        cases h
        simpa using hp

theorem getLast?_cons_ne_nil {α : Type} {a : α} {t : List α} (h : t ≠ []) :
    (a :: t).getLast? = t.getLast? := by
  cases t with
  | nil => simp at h
  | cons b u => simp [List.getLast?]

theorem getLast?_dropWhile_ne_nil {α : Type} {p : α → Bool} {l : List α}
    (h : l.dropWhile p ≠ []) : (l.dropWhile p).getLast? = l.getLast? := by
  induction l with
  | nil => simp [List.dropWhile] at h
  | cons a t ih =>
      rw [List.dropWhile_cons] at h ⊢
      by_cases hp : p a = true
      · simp only [hp, if_true] at h ⊢
        rw [ih h, getLast?_cons_ne_nil]
        intro ht
        rw [ht] at h
        simp [List.dropWhile] at h
      · simp [hp]

theorem head?_trimBy_false {p : Char → Bool} {l : List Char} {c : Char}
    (h : (trimBy p l).head? = some c) : p c = false := by
  unfold trimBy at h
  rw [List.head?_reverse] at h
  have hne : (l.dropWhile p).reverse.dropWhile p ≠ [] := by
    intro hnil
    rw [hnil] at h
    simp at h
  rw [getLast?_dropWhile_ne_nil hne, List.getLast?_reverse] at h
  exact head?_dropWhile_false h

theorem getLast?_trimBy_false {p : Char → Bool} {l : List Char} {c : Char}
    (h : (trimBy p l).getLast? = some c) : p c = false := by
  unfold trimBy at h
  rw [List.getLast?_reverse] at h
  exact head?_dropWhile_false h

theorem mem_trimBy {p : Char → Bool} {l : List Char} {c : Char}
    (h : c ∈ trimBy p l) : c ∈ l := by
  unfold trimBy at h
  rw [List.mem_reverse] at h
  have h2 := (List.dropWhile_sublist p).mem h
  rw [List.mem_reverse] at h2
  exact (List.dropWhile_sublist p).mem h2

theorem not_space_of_digit {c : Char} (h : isDigitChar c = true) :
    isPySpace c = false := by
  simp only [isDigitChar, Bool.and_eq_true, decide_eq_true_eq] at h
  simp only [isPySpace, Bool.or_eq_false_iff, decide_eq_false_iff_not]
  refine ⟨⟨⟨⟨⟨?_, ?_⟩, ?_⟩, ?_⟩, ?_⟩, ?_⟩ <;>
    (rintro rfl; exact absurd h.1 (by decide))

theorem trimBy_eq_self_of_digits {l : List Char}
    (hall : ∀ c ∈ l, isDigitChar c = true) : trimBy isPySpace l = l := by
  have hsp : ∀ c ∈ l, isPySpace c = false :=
    fun c hc => not_space_of_digit (hall c hc)
  have h1 : l.dropWhile isPySpace = l :=
    dropWhile_eq_self_of_head
      (fun c hc => hsp c (List.mem_of_mem_head? hc))
  have h2 : l.reverse.dropWhile isPySpace = l.reverse :=
    dropWhile_eq_self_of_head
      (fun c hc => hsp c (by
        have := List.mem_of_mem_head? hc
        rwa [List.mem_reverse] at this))
  unfold trimBy
  rw [h1, h2, List.reverse_reverse]

theorem pyStrip_of_digits {t : String} (h : pyIsDigit t = true) :
    pyStrip t = t := by
  unfold pyIsDigit at h
  rw [Bool.and_eq_true] at h
  have hall : ∀ c ∈ t.toList, isDigitChar c = true :=
    List.all_eq_true.mp h.2
  unfold pyStrip
  rw [trimBy_eq_self_of_digits hall]
  cases t
  rfl

theorem region_to_code_of_digit {x : String}
    (h : pyIsDigit (pyStrip x) = true) : region_to_code x = pyStrip x := by
  unfold region_to_code
  simp [h]

theorem mem_collapseRuns {c : Char} (l : List Char) :
    ∀ b, c ∈ collapseRuns l b → isAlnumLower c = true ∨ c = '-' := by
  induction l with
  | nil => intro b h; simp [collapseRuns] at h
  | cons a t ih =>
      intro b h
      unfold collapseRuns at h
      by_cases ha : isAlnumLower a = true
      · rw [if_pos ha] at h
        rcases List.mem_cons.mp h with rfl | h2
        · exact Or.inl ha
        · exact ih false h2
      · rw [if_neg ha] at h
        by_cases hb : b = true
        · rw [if_pos hb] at h
          exact ih true h
        · rw [if_neg hb] at h
          rcases List.mem_cons.mp h with rfl | h2
          · exact Or.inr rfl
          · exact ih true h2

/-!
Claim theorems, witnesses and counterexamples.
-/

/-- Claim C8: the region normalizer is idempotent on already-numeric input:
for every string whose trimmed form is purely numeric,
`region_to_code (region_to_code x) = region_to_code x`. -/
theorem region_to_code_idempotent_on_numeric (x : String)
    (h : pyIsDigit (pyStrip x) = true) :
    region_to_code (region_to_code x) = region_to_code x := by
  rw [region_to_code_of_digit h]
  have hstrip : pyStrip (pyStrip x) = pyStrip x := pyStrip_of_digits h
  rw [region_to_code_of_digit (by rwa [hstrip]), hstrip]

/-- Witness for C8 at the concrete numeric input `" 53 "`. -/
theorem region_to_code_idempotent_on_numeric_witness :
    pyIsDigit (pyStrip " 53 ") = true
      ∧ region_to_code (region_to_code " 53 ") = region_to_code " 53 " :=
  ⟨by decide, region_to_code_idempotent_on_numeric " 53 " (by decide)⟩

/-- Claim C9: each server-side numeric-range filter returns a subsequence of
its input (every output record is an unmodified input record, in the input's
relative order), and when both bounds are absent each filter is the
identity. -/
theorem filters_are_order_preserving_subsequences :
    (∀ (l : List CompanyInfo) (a b : Option Int),
        (_filter_effectif l a b).Sublist l)
    ∧ (∀ (l : List CompanyInfo) (a b : Option Int),
        (_filter_resultat_net l a b).Sublist l)
    ∧ (∀ l : List CompanyInfo, _filter_effectif l none none = l)
    ∧ (∀ l : List CompanyInfo, _filter_resultat_net l none none = l) := by
  refine ⟨?_, ?_, ?_, ?_⟩
  · intro l a b
    unfold _filter_effectif
    split
    · exact List.Sublist.refl l
    · exact List.filter_sublist l
  · intro l a b
    unfold _filter_resultat_net
    split
    · exact List.Sublist.refl l
    · exact List.filter_sublist l
  · intro l; simp [_filter_effectif]
  · intro l; simp [_filter_resultat_net]

theorem rangeKeep_eq_claimKeep (minVal maxVal : Option Int)
    (c : CompanyInfo) :
    rangeKeep minVal maxVal c.internal_effectifs_finances
      = claimKeepWorkforce minVal maxVal c := by
  unfold rangeKeep claimKeepWorkforce
  cases hv : c.internal_effectifs_finances with
  | vNone => simp [pyIntOfFVal]
  | vStr s =>
      cases hn : pyIntOfFVal (FVal.vStr s) with
      | none => simp [hn]
      | some n =>
          cases minVal <;> cases maxVal <;>
            simp [hn, ← decide_not, Int.not_lt]
  | vInt n =>
      cases minVal <;> cases maxVal <;>
        simp [pyIntOfFVal, ← decide_not, Int.not_lt]

/-- Claim C4: the workforce post-filter keeps exactly the records whose
value is unknown or unparseable, or whose integer value lies within the
given bounds; concretely, with `min=10, max=50` an unknown workforce passes,
workforce 5 is excluded and workforce 30 is included. -/
theorem filter_effectif_characterization :
    (∀ (l : List CompanyInfo) (minVal maxVal : Option Int),
        _filter_effectif l minVal maxVal
          = l.filter (claimKeepWorkforce minVal maxVal))
    ∧ (∀ c : CompanyInfo, c.internal_effectifs_finances = .vNone →
        _filter_effectif [c] (some 10) (some 50) = [c])
    ∧ (∀ c : CompanyInfo, c.internal_effectifs_finances = .vInt 5 →
        _filter_effectif [c] (some 10) (some 50) = [])
    ∧ (∀ c : CompanyInfo, c.internal_effectifs_finances = .vInt 30 →
        _filter_effectif [c] (some 10) (some 50) = [c]) := by
  refine ⟨?_, ?_, ?_, ?_⟩
  · intro l minVal maxVal
    unfold _filter_effectif
    split
    · rename_i hmm
      rw [List.filter_eq_self.mpr]
      intro c _
      unfold claimKeepWorkforce
      rcases hmm with ⟨h1, h2⟩
      subst h1; subst h2
      cases pyIntOfFVal c.internal_effectifs_finances <;> simp
    · exact List.filter_congr (fun c _ => rangeKeep_eq_claimKeep _ _ c)
  · intro c h
    simp [_filter_effectif, List.filter, rangeKeep, h]
  · intro c h
    simp [_filter_effectif, List.filter, rangeKeep, h, pyIntOfFVal]
  · intro c h
    simp [_filter_effectif, List.filter, rangeKeep, h, pyIntOfFVal]

/-- Witness for C4 at concrete records: unknown workforce passes the
`min=10, max=50` filter, workforce 5 is excluded, workforce 30 is
included. -/
theorem filter_effectif_characterization_witness :
    _filter_effectif
        [{ baseCompanyInfo with internal_effectifs_finances := .vNone }]
        (some 10) (some 50)
      = [{ baseCompanyInfo with internal_effectifs_finances := .vNone }]
    ∧ _filter_effectif
        [{ baseCompanyInfo with internal_effectifs_finances := .vInt 5 }]
        (some 10) (some 50)
      = []
    ∧ _filter_effectif
        [{ baseCompanyInfo with internal_effectifs_finances := .vInt 30 }]
        (some 10) (some 50)
      = [{ baseCompanyInfo with internal_effectifs_finances := .vInt 30 }] :=
  ⟨filter_effectif_characterization.2.1 _ rfl,
   filter_effectif_characterization.2.2.1 _ rfl,
   filter_effectif_characterization.2.2.2 _ rfl⟩

/-- Claim C3: the extractor's workforce field is the first non-empty value
in the precedence order search `effectifs_finances`, detail `effectif`,
search `effectif`, detail first finances entry's `effectif`, detail
`tranche_effectif`, search `tranche_effectif`, else empty; in particular a
search record with `effectifs_finances = 42` wins over any detail
effectif. -/
theorem extract_effectif_precedence :
    (∀ (c : SearchRecord) (d : DetailRecord) (y : Int),
        (extract_company_info c d y).effectif
          = firstNonEmptyFVal [c.effectifs_finances, d.effectif, c.effectif,
              (financesHead d).effectif, d.tranche_effectif,
              c.tranche_effectif])
    ∧ (∀ (c : SearchRecord) (d : DetailRecord) (y : Int),
        c.effectifs_finances = .vInt 42 →
          (extract_company_info c d y).effectif = .vInt 42) := by
  have h1 : ∀ (c : SearchRecord) (d : DetailRecord) (y : Int),
      (extract_company_info c d y).effectif
        = firstNonEmptyFVal [c.effectifs_finances, d.effectif, c.effectif,
            (financesHead d).effectif, d.tranche_effectif,
            c.tranche_effectif] := fun c d y => rfl
  refine ⟨h1, fun c d y h => ?_⟩
  rw [h1, h]
  simp [firstNonEmptyFVal, FVal.truthy]

/-- Witness for C3: `effectifs_finances = 42` beats a detail record whose
own effectif is 100. -/
theorem extract_effectif_precedence_witness :
    (extract_company_info
        { emptySearchRecord with effectifs_finances := .vInt 42 }
        { emptyDetailRecord with effectif := .vInt 100 } 2024).effectif
      = .vInt 42
    ∧ ({ emptyDetailRecord with effectif := .vInt 100 } :
        DetailRecord).effectif ≠ .vInt 42 :=
  ⟨extract_effectif_precedence.2 _ _ 2024 rfl, by decide⟩

/-- Claim C1 counterexample: a request whose only present field is the
company name is accepted by the code's validation, although none of the
claim's six categories (sector, region, department, revenue bounds, city,
executive name) is present. -/
theorem api_search_validation_cex :
    apiSearchStep reqNomEntrepriseOnly = .proceeds
      ∧ claimRequiredFieldPresent reqNomEntrepriseOnly = false := by
  constructor <;> decide

/-- Claim C1 (amended): `api_search` issues the search exactly when at least
one of the nine checked fields — sector (after trimming), region,
department, revenue min/max, city, company name, or executive last/first
name — is present and truthy, and rejects with a validation error before
any remote call otherwise; fields outside this set do not count. -/
theorem api_search_validation_amended :
    (∀ d : SearchRequest,
        apiSearchStep d = .proceeds
          ↔ (claimRequiredFieldPresent d = true
              ∨ d.nom_entreprise.truthy = true))
    ∧ apiSearchStep emptySearchRequest = .validationError := by
  constructor
  · intro d
    have key : validateSearch d = true
        ↔ (claimRequiredFieldPresent d = true
            ∨ d.nom_entreprise.truthy = true) := by
      simp only [validateSearch, claimRequiredFieldPresent, Bool.or_eq_true]
      tauto
    unfold apiSearchStep
    by_cases hv : validateSearch d
    · simp [hv, key.mp hv]
    · have : ¬(claimRequiredFieldPresent d = true
          ∨ d.nom_entreprise.truthy = true) := fun hc => hv (key.mpr hc)
      simp [hv, this]
  · decide

/-- Witness for C1 (amended) at the company-name-only request. -/
theorem api_search_validation_amended_witness :
    apiSearchStep reqNomEntrepriseOnly = .proceeds :=
  (api_search_validation_amended.1 reqNomEntrepriseOnly).mpr
    (Or.inr (by decide))

/-- Claim C7 counterexample: a search hit whose name is present (truthy) and
whose identifier is present still gets no registry URL, because the name
`"!!!"` slugifies to the empty string. -/
theorem pappers_url_claim_cex :
    (extract_company_info searchRecordBangName emptyDetailRecord
        2024).pappers_url = ""
      ∧ searchRecordBangName.nom_entreprise.truthy = true
      ∧ searchRecordBangName.siren ≠ "" := by
  refine ⟨by decide, by decide, by decide⟩

/-- Claim C7 (amended): every slug consists only of characters in
`[a-z0-9-]` with no leading or trailing hyphen, and
`slug("Société Générale")` is `"societe-generale"`; the registry URL is
built exactly when the identifier is present and the name's slug is
non-empty (a present name whose slug is empty yields no URL), and then
equals `{baseURL}/{slug(name)}-{identifier}`. -/
theorem slug_and_pappers_url_amended :
    (∀ s : String, (_slugify s).toList.all isSlugChar = true)
    ∧ (∀ s : String, (_slugify s).toList.head? ≠ some '-'
        ∧ (_slugify s).toList.getLast? ≠ some '-')
    ∧ _slugify "Société Générale" = "societe-generale"
    ∧ (∀ (c : SearchRecord) (d : DetailRecord) (y : Int),
        (extract_company_info c d y).pappers_url
          = (if c.siren ≠ ""
                && slugOfNom (pyOr c.nom_entreprise c.denomination) ≠ "" then
              "https://www.pappers.fr/entreprise/"
                ++ slugOfNom (pyOr c.nom_entreprise c.denomination)
                ++ "-" ++ c.siren
            else ""))
    ∧ (∀ (c : SearchRecord) (d : DetailRecord) (y : Int),
        ((extract_company_info c d y).pappers_url ≠ ""
          ↔ (c.siren ≠ ""
              ∧ slugOfNom (pyOr c.nom_entreprise c.denomination) ≠ ""))) := by
  have hurl : ∀ (c : SearchRecord) (d : DetailRecord) (y : Int),
      (extract_company_info c d y).pappers_url
        = (if c.siren ≠ ""
              && slugOfNom (pyOr c.nom_entreprise c.denomination) ≠ "" then
            "https://www.pappers.fr/entreprise/"
              ++ slugOfNom (pyOr c.nom_entreprise c.denomination)
              ++ "-" ++ c.siren
          else "") := fun c d y => rfl
  refine ⟨?_, ?_, by decide, hurl, ?_⟩
  · intro s
    rw [List.all_eq_true]
    intro c hc
    have hmem : c ∈ collapseRuns ((nfdAscii s.toList).map Char.toLower)
        false := mem_trimBy hc
    rcases mem_collapseRuns _ false hmem with h | h
    · simp [isSlugChar, h]
    · simp [isSlugChar, h]
  · intro s
    constructor
    · intro h
      have := head?_trimBy_false (show (trimBy (fun c => c = '-')
        (collapseRuns ((nfdAscii s.toList).map Char.toLower)
          false)).head? = some '-' from h)
      simp at this
    · intro h
      have := getLast?_trimBy_false (show (trimBy (fun c => c = '-')
        (collapseRuns ((nfdAscii s.toList).map Char.toLower)
          false)).getLast? = some '-' from h)
      simp at this
  · intro c d y
    rw [hurl c d y]
    by_cases h : (c.siren ≠ ""
        && slugOfNom (pyOr c.nom_entreprise c.denomination) ≠ "") = true
    · rw [if_pos h]
      rw [Bool.and_eq_true, decide_eq_true_eq, decide_eq_true_eq] at h
      constructor
      · intro _; exact h
      · intro _
        intro heq
        have hlen := congrArg String.length heq
        rw [String.length_append, String.length_append,
          String.length_append] at hlen
        have hb : ("https://www.pappers.fr/entreprise/" : String).length = 34 := by
          decide
        have hh : ("-" : String).length = 1 := by decide
        have h0 : ("" : String).length = 0 := by decide
        rw [hb, hh, h0] at hlen
        omega
    · rw [if_neg h]
      rw [Bool.and_eq_true, decide_eq_true_eq, decide_eq_true_eq] at h
      simp only [ne_eq, not_true_eq_false, false_iff]
      exact h

/-- Witness for C7 (amended): a record with name `"Acme"` and identifier
`"123456789"` does get a registry URL. -/
theorem slug_and_pappers_url_amended_witness :
    (extract_company_info
        { emptySearchRecord with
            nom_entreprise := .vStr "Acme"
            siren := "123456789" } emptyDetailRecord 2024).pappers_url ≠ "" :=
  (slug_and_pappers_url_amended.2.2.2.2 _ emptyDetailRecord 2024).mpr
    ⟨by decide, by decide⟩

/-- Claim C6: the extracted executive age is the provided age field when it
is present (truthy); otherwise it is `currentYear − birthYear` parsed from a
birth date in `YYYY-MM-DD` layout (split on `-`, first segment) or
`DD/MM/YYYY` layout (split on `/`, last segment); a parse failure leaves the
age empty (falsy), and the computation is total (it always yields the
provided age or a year difference, never an exception); the extractor's
`age_dirigeant` is exactly this computation on the chosen dirigeant. -/
theorem extract_age_characterization :
    (∀ (dg : Dirigeant) (y : Int),
        dg.age.truthy = true → extractAge dg y = dg.age)
    ∧ (∀ (dg : Dirigeant) (y b : Int),
        dg.age.truthy = false →
        (dobOf dg).toList.contains '-' = true →
        pyInt (String.mk ((splitOnChar '-' (dobOf dg).toList []).headD []))
          = some b →
        extractAge dg y = .vInt (y - b))
    ∧ (∀ (dg : Dirigeant) (y b : Int),
        dg.age.truthy = false → dobOf dg ≠ "" →
        (dobOf dg).toList.contains '-' = false →
        pyInt (String.mk ((splitOnChar '/' (dobOf dg).toList []).getLastD []))
          = some b →
        extractAge dg y = .vInt (y - b))
    ∧ (∀ (dg : Dirigeant) (y : Int),
        dg.age.truthy = false →
        (dobOf dg).toList.contains '-' = true →
        pyInt (String.mk ((splitOnChar '-' (dobOf dg).toList []).headD []))
          = none →
        extractAge dg y = dg.age ∧ (extractAge dg y).truthy = false)
    ∧ (∀ (dg : Dirigeant) (y : Int),
        extractAge dg y = dg.age ∨ ∃ b : Int, extractAge dg y = .vInt (y - b))
    ∧ (∀ (c : SearchRecord) (d : DetailRecord) (y : Int),
        (extract_company_info c d y).age_dirigeant
          = match pickDirigeant (effDirigeants c d) with
            | some dg => extractAge dg y
            | none => .vStr "") := by
  have hcontains_ne : ∀ dg : Dirigeant,
      (dobOf dg).toList.contains '-' = true → dobOf dg ≠ "" := by
    intro dg hc he
    rw [he] at hc
    simp at hc
  refine ⟨?_, ?_, ?_, ?_, ?_, fun c d y => rfl⟩
  · intro dg y h
    simp only [extractAge]
    rw [if_pos h]
  · intro dg y b h1 h2 h3
    simp only [extractAge]
    rw [if_neg (by simp [h1]), if_pos (hcontains_ne dg h2), if_pos h2, h3]
  · intro dg y b h1 hne h2 h3
    simp only [extractAge]
    rw [if_neg (by simp [h1]), if_pos hne, if_neg (by simpa using h2), h3]
  · intro dg y h1 h2 h3
    have key : extractAge dg y = dg.age := by
      simp only [extractAge]
      rw [if_neg (by simp [h1]), if_pos (hcontains_ne dg h2), if_pos h2, h3]
    exact ⟨key, key ▸ h1⟩
  · intro dg y
    simp only [extractAge]
    by_cases h : dg.age.truthy = true
    · left; rw [if_pos h]
    · by_cases hd : dobOf dg ≠ ""
      · by_cases hc : (dobOf dg).toList.contains '-' = true
        · cases hbirth : pyInt (String.mk
              ((splitOnChar '-' (dobOf dg).toList []).headD [])) with
          | none => left; rw [if_neg h, if_pos hd, if_pos hc]
          | some b =>
              right
              exact ⟨b, by rw [if_neg h, if_pos hd, if_pos hc]⟩
        · cases hbirth : pyInt (String.mk
              ((splitOnChar '/' (dobOf dg).toList []).getLastD [])) with
          | none => left; rw [if_neg h, if_pos hd, if_neg hc]
          | some b =>
              right
              exact ⟨b, by rw [if_neg h, if_pos hd, if_neg hc]⟩
      · left; rw [if_neg h, if_neg hd]

theorem fePollLoop_step (polls : Nat → PollResp) (n k fuel : Nat) :
    fePollLoop polls n k (fuel + 1)
      = (if (polls k).code = 402 then (.errCreditsInsufficient, k + 1)
         else if 400 ≤ (polls k).code ∧ (polls k).code < 500 then
           (.errClient (polls k).code, k + 1)
         else if 400 ≤ (polls k).code ∧ (polls k).code < 600 then
           (.errHTTP (polls k).code, k + 1)
         else if statusOf (polls k).body = "FINISHED" then
           (.success (mkEnriched (polls k).body.data)
             (polls k).body.credits n, k + 1)
         else if statusOf (polls k).body = "CANCELED"
             ∨ statusOf (polls k).body = "CREDITS_INSUFFICIENT"
             ∨ statusOf (polls k).body = "RATE_LIMIT" then
           (.errInterrupted (statusOf (polls k).body), k + 1)
         else fePollLoop polls n (k + 1) fuel) := rfl

theorem fePollLoop_continue (polls : Nat → PollResp) (n k fuel : Nat)
    (h : pollContinues (polls k)) :
    fePollLoop polls n k (fuel + 1) = fePollLoop polls n (k + 1) fuel := by
  obtain ⟨hcode, hfin, hcan, hcred, hrate⟩ := h
  rw [fePollLoop_step]
  rw [if_neg (fun he => hcode (by rw [he]; exact ⟨by norm_num, by norm_num⟩)),
    if_neg (fun hr => hcode ⟨hr.1, by omega⟩), if_neg hcode, if_neg hfin,
    if_neg (by rintro (h | h | h) <;> [exact hcan h; exact hcred h;
      exact hrate h])]

theorem fePollLoop_timeout (polls : Nat → PollResp) (n : Nat) :
    ∀ (fuel k : Nat), (∀ j, j < fuel → pollContinues (polls (k + j))) →
      fePollLoop polls n k fuel = (.errTimeout, k + fuel) := by
  intro fuel
  induction fuel with
  | zero => intro k _; rfl
  | succ f ih =>
      intro k h
      rw [fePollLoop_continue polls n k f (h 0 (Nat.succ_pos f)),
        ih (k + 1) (fun j hj => by
          have := h (j + 1) (by omega)
          rwa [show k + (j + 1) = k + 1 + j by omega] at this)]
      rw [show k + 1 + f = k + (f + 1) by omega]

theorem fePollLoop_success (polls : Nat → PollResp) (n : Nat) :
    ∀ (fuel k : Nat) (e : List EnrichedEntry) (cr : Int) (m cnt : Nat),
      fePollLoop polls n k fuel = (.success e cr m, cnt) →
      m = n ∧ ∃ k', statusOf (polls k').body = "FINISHED"
        ∧ e = mkEnriched (polls k').body.data
        ∧ cr = (polls k').body.credits := by
  intro fuel
  induction fuel with
  | zero => intro k e cr m cnt h; simp [fePollLoop] at h
  | succ f ih =>
      intro k e cr m cnt h
      simp only [fePollLoop] at h
      by_cases h402 : (polls k).code = 402
      · rw [if_pos h402] at h; simp at h
      · rw [if_neg h402] at h
        by_cases h4 : 400 ≤ (polls k).code ∧ (polls k).code < 500
        · rw [if_pos h4] at h; simp at h
        · rw [if_neg h4] at h
          by_cases h5 : 400 ≤ (polls k).code ∧ (polls k).code < 600
          · rw [if_pos h5] at h; simp at h
          · rw [if_neg h5] at h
            by_cases hf : statusOf (polls k).body = "FINISHED"
            · rw [if_pos hf] at h
              rw [Prod.mk.injEq] at h
              obtain ⟨h1, _⟩ := h
              rw [EnrichOutcome.success.injEq] at h1
              obtain ⟨he, hcr, hm⟩ := h1
              exact ⟨hm.symm, k, hf, he.symm, hcr.symm⟩
            · rw [if_neg hf] at h
              by_cases ht : statusOf (polls k).body = "CANCELED"
                  ∨ statusOf (polls k).body = "CREDITS_INSUFFICIENT"
                  ∨ statusOf (polls k).body = "RATE_LIMIT"
              · rw [if_pos ht] at h; simp at h
              · rw [if_neg ht] at h
                exact ih (k + 1) e cr m cnt h

theorem pyTake_nil {α : Type} (n : Int) : pyTake n ([] : List α) = [] := by
  unfold pyTake
  split <;> simp

theorem pyTake_length_le {α : Type} {n : Int} (h : 0 ≤ n) (l : List α) :
    (((pyTake n l).length : Nat) : Int) ≤ n := by
  unfold pyTake
  rw [if_pos h]
  simp only [List.length_take]
  omega

theorem searchLoop_step {α : Type} (pages : Nat → PageResp α)
    (maxR parPage : Int) (page : Nat) (acc : List α) (fuel : Nat) :
    searchLoop pages maxR parPage page acc (fuel + 1)
      = (if (acc.length : Int) < maxR then
          match pages page with
          | .fail => pyTake maxR acc
          | .ok results total =>
              if results.isEmpty then pyTake maxR acc
              else
                if min total maxR - ((acc ++ results).length : Int) ≤ 0
                    ∨ (results.length : Int) < parPage then
                  pyTake maxR (acc ++ results)
                else searchLoop pages maxR parPage (page + 1)
                  (acc ++ results) fuel
        else pyTake maxR acc) := rfl

theorem searchLoop_length_le {α : Type} (pages : Nat → PageResp α)
    {maxR : Int} (parPage : Int) (hmax : 0 ≤ maxR) :
    ∀ (fuel page : Nat) (acc : List α),
      ((searchLoop pages maxR parPage page acc fuel).length : Int) ≤ maxR := by
  intro fuel
  induction fuel with
  | zero => intro page acc; exact pyTake_length_le hmax acc
  | succ f ih =>
      intro page acc
      rw [searchLoop_step]
      split
      · split
        · exact pyTake_length_le hmax acc
        · split
          · exact pyTake_length_le hmax acc
          · split
            · exact pyTake_length_le hmax _
            · exact ih (page + 1) _
      · exact pyTake_length_le hmax acc

theorem concatResults_zero {α : Type} (pages : Nat → PageResp α) (k : Nat) :
    concatResults pages k 0 = [] := rfl

theorem concatResults_succ {α : Type} (pages : Nat → PageResp α) (k m : Nat) :
    concatResults pages k (m + 1)
      = pageResults (pages k) ++ concatResults pages (k + 1) m := by
  unfold concatResults
  rw [List.range_succ_eq_map, List.flatMap_cons, List.flatMap_map]
  have hf : (fun a => pageResults (pages (k + Nat.succ a)))
      = (fun j => pageResults (pages (k + 1 + j))) := by
    funext j
    congr 2
    omega
  rw [hf, Nat.add_zero]

theorem searchLoop_accum {α : Type} (pages : Nat → PageResp α)
    (maxR parPage : Int) :
    ∀ (fuel page : Nat) (acc : List α),
      ∃ m, (∀ j, j < m → okNonempty (pages (page + j)))
        ∧ searchLoop pages maxR parPage page acc fuel
            = pyTake maxR (acc ++ concatResults pages page m) := by
  intro fuel
  induction fuel with
  | zero =>
      intro page acc
      exact ⟨0, fun j hj => absurd hj (by omega),
        by rw [concatResults_zero, List.append_nil]; rfl⟩
  | succ f ih =>
      intro page acc
      rw [searchLoop_step]
      split
      · split
        · exact ⟨0, fun j hj => absurd hj (by omega),
            by rw [concatResults_zero, List.append_nil]⟩
        · rename_i results total hp
          by_cases he : results.isEmpty
          · rw [if_pos he]
            exact ⟨0, fun j hj => absurd hj (by omega),
              by rw [concatResults_zero, List.append_nil]⟩
          · rw [if_neg he]
            have hrne : results ≠ [] := by
              intro hnil
              rw [hnil] at he
              exact he rfl
            by_cases hbr : min total maxR - ((acc ++ results).length : Int)
                ≤ 0 ∨ (results.length : Int) < parPage
            · rw [if_pos hbr]
              refine ⟨1, ?_, ?_⟩
              · intro j hj
                have hj0 : j = 0 := by omega
                subst hj0
                rw [show page + 0 = page from rfl, hp]
                exact hrne
              · rw [concatResults_succ, hp,
                  show pageResults (PageResp.ok results total) = results
                    from rfl,
                  concatResults_zero, List.append_nil]
            · rw [if_neg hbr]
              obtain ⟨m, hok, heq⟩ := ih (page + 1) (acc ++ results)
              refine ⟨m + 1, ?_, ?_⟩
              · intro j hj
                cases j with
                | zero =>
                    rw [show page + 0 = page from rfl, hp]
                    exact hrne
                | succ i =>
                    have := hok i (by omega)
                    rwa [show page + (i + 1) = page + 1 + i by omega]
              · rw [heq, concatResults_succ, hp,
                  show pageResults (PageResp.ok results total) = results
                    from rfl,
                  List.append_assoc]
      · exact ⟨0, fun j hj => absurd hj (by omega),
          by rw [concatResults_zero, List.append_nil]⟩

/-- Claim C2: the bulk-enrichment operation either succeeds with a full
mapping or fails with one specific failure kind and no partial results: a
missing job identifier, an HTTP 402 on poll, any other poll 4xx, and a
terminal status in CANCELED / CREDITS_INSUFFICIENT / RATE_LIMIT each
produce a distinct error carrying no result mapping; the status sequence
PENDING, PENDING, FINISHED resolves with the FINISHED payload after exactly
3 polls; only non-terminal statuses for all FULLENRICH_POLL_MAX attempts
produce the distinct timeout failure; and any success carries one entry per
result record plus the submitted-contact count. -/
theorem do_fullenrich_enrich_characterization
    (contacts : List Contact) (sc : Int) (sb : SubmitBody)
    (polls : Nat → PollResp) :
    (¬(400 ≤ sc ∧ sc < 600) → (jobIdOf sb).truthy = false →
        doFullenrichEnrich contacts sc sb polls = (.errNoId, 0))
    ∧ (400 ≤ sc ∧ sc < 600 →
        doFullenrichEnrich contacts sc sb polls = (.errHTTP sc, 0))
    ∧ (¬(400 ≤ sc ∧ sc < 600) → (jobIdOf sb).truthy = true →
        (polls 0).code = 402 →
        doFullenrichEnrich contacts sc sb polls
          = (.errCreditsInsufficient, 1))
    ∧ (¬(400 ≤ sc ∧ sc < 600) → (jobIdOf sb).truthy = true →
        (polls 0).code ≠ 402 →
        400 ≤ (polls 0).code ∧ (polls 0).code < 500 →
        doFullenrichEnrich contacts sc sb polls
          = (.errClient (polls 0).code, 1))
    ∧ (¬(400 ≤ sc ∧ sc < 600) → (jobIdOf sb).truthy = true →
        ¬(400 ≤ (polls 0).code ∧ (polls 0).code < 600) →
        (statusOf (polls 0).body = "CANCELED"
          ∨ statusOf (polls 0).body = "CREDITS_INSUFFICIENT"
          ∨ statusOf (polls 0).body = "RATE_LIMIT") →
        doFullenrichEnrich contacts sc sb polls
          = (.errInterrupted (statusOf (polls 0).body), 1))
    ∧ (¬(400 ≤ sc ∧ sc < 600) → (jobIdOf sb).truthy = true →
        pollContinues (polls 0) → pollContinues (polls 1) →
        ¬(400 ≤ (polls 2).code ∧ (polls 2).code < 600) →
        statusOf (polls 2).body = "FINISHED" →
        doFullenrichEnrich contacts sc sb polls
          = (.success (mkEnriched (polls 2).body.data)
              (polls 2).body.credits contacts.length, 3))
    ∧ (¬(400 ≤ sc ∧ sc < 600) → (jobIdOf sb).truthy = true →
        (∀ j, j < FULLENRICH_POLL_MAX → pollContinues (polls j)) →
        doFullenrichEnrich contacts sc sb polls
          = (.errTimeout, FULLENRICH_POLL_MAX))
    ∧ (∀ (e : List EnrichedEntry) (cr : Int) (m cnt : Nat),
        doFullenrichEnrich contacts sc sb polls = (.success e cr m, cnt) →
        m = contacts.length
          ∧ ∃ k', statusOf (polls k').body = "FINISHED"
              ∧ e = mkEnriched (polls k').body.data
              ∧ cr = (polls k').body.credits) := by
  refine ⟨?_, ?_, ?_, ?_, ?_, ?_, ?_, ?_⟩
  · intro hsc hid
    simp only [doFullenrichEnrich]
    rw [if_neg hsc, if_neg (by simp [hid])]
  · intro hsc
    simp only [doFullenrichEnrich]
    rw [if_pos hsc]
  · intro hsc hid h402
    simp only [doFullenrichEnrich]
    rw [if_neg hsc, if_pos hid]
    show fePollLoop polls contacts.length 0 (39 + 1) = _
    rw [fePollLoop_step, if_pos h402]
  · intro hsc hid hne h4
    simp only [doFullenrichEnrich]
    rw [if_neg hsc, if_pos hid]
    show fePollLoop polls contacts.length 0 (39 + 1) = _
    rw [fePollLoop_step, if_neg hne, if_pos h4]
  · intro hsc hid hok ht
    simp only [doFullenrichEnrich]
    rw [if_neg hsc, if_pos hid]
    show fePollLoop polls contacts.length 0 (39 + 1) = _
    rw [fePollLoop_step,
      if_neg (fun he => hok (by rw [he]; exact ⟨by norm_num, by norm_num⟩)),
      if_neg (fun hr => hok ⟨hr.1, by omega⟩), if_neg hok,
      if_neg (by rintro hfin; rcases ht with h | h | h <;> rw [hfin] at h <;>
        simp at h), if_pos ht]
  · intro hsc hid hc0 hc1 hok2 hfin2
    simp only [doFullenrichEnrich]
    rw [if_neg hsc, if_pos hid]
    show fePollLoop polls contacts.length 0 (39 + 1) = _
    rw [fePollLoop_continue polls contacts.length 0 39 hc0]
    show fePollLoop polls contacts.length 1 (38 + 1) = _
    rw [fePollLoop_continue polls contacts.length 1 38 hc1]
    show fePollLoop polls contacts.length 2 (37 + 1) = _
    rw [fePollLoop_step,
      if_neg (fun he => hok2 (by rw [he]; exact ⟨by norm_num, by norm_num⟩)),
      if_neg (fun hr => hok2 ⟨hr.1, by omega⟩), if_neg hok2, if_pos hfin2]
  · intro hsc hid hall
    simp only [doFullenrichEnrich]
    rw [if_neg hsc, if_pos hid]
    exact fePollLoop_timeout polls contacts.length FULLENRICH_POLL_MAX 0
      (fun j hj => by simpa using hall j hj)
  · intro e cr m cnt h
    simp only [doFullenrichEnrich] at h
    by_cases hsc : 400 ≤ sc ∧ sc < 600
    · rw [if_pos hsc] at h; simp at h
    · rw [if_neg hsc] at h
      by_cases hid : (jobIdOf sb).truthy = true
      · rw [if_pos hid] at h
        exact fePollLoop_success polls contacts.length
          FULLENRICH_POLL_MAX 0 e cr m cnt h
      · rw [if_neg hid] at h; simp at h

/-- Witness for C2: with one contact, a job id, and poll statuses PENDING,
PENDING, FINISHED the call succeeds with the FINISHED payload after exactly
3 polls; and with a missing job identifier it fails with the no-identifier
error. -/
theorem do_fullenrich_enrich_characterization_witness :
    doFullenrichEnrich [contactA] 200 submitBodyOk pollsPPF
      = (.success (mkEnriched (pollsPPF 2).body.data)
          (pollsPPF 2).body.credits 1, 3)
    ∧ doFullenrichEnrich [contactA] 200 submitBodyNoId pollsPPF
      = (.errNoId, 0) :=
  ⟨(do_fullenrich_enrich_characterization [contactA] 200 submitBodyOk
      pollsPPF).2.2.2.2.2.1 (by decide) (by decide) (by decide) (by decide)
      (by decide) (by decide),
   (do_fullenrich_enrich_characterization [contactA] 200 submitBodyNoId
      pollsPPF).1 (by decide) (by decide)⟩

theorem sameExceptContact_refl (c : CompanyInfo) : sameExceptContact c c :=
  ⟨rfl, rfl, rfl, rfl, rfl, rfl, rfl, rfl, rfl, rfl, rfl, rfl, rfl, rfl, rfl⟩

theorem sameExceptContact_trans {c c' c'' : CompanyInfo}
    (h1 : sameExceptContact c c') (h2 : sameExceptContact c' c'') :
    sameExceptContact c c'' := by
  unfold sameExceptContact at *
  obtain ⟨a1, a2, a3, a4, a5, a6, a7, a8, a9, a10, a11, a12, a13, a14, a15⟩ := h1
  obtain ⟨b1, b2, b3, b4, b5, b6, b7, b8, b9, b10, b11, b12, b13, b14, b15⟩ := h2
  exact ⟨b1.trans a1, b2.trans a2, b3.trans a3, b4.trans a4, b5.trans a5,
    b6.trans a6, b7.trans a7, b8.trans a8, b9.trans a9, b10.trans a10,
    b11.trans a11, b12.trans a12, b13.trans a13, b14.trans a14,
    b15.trans a15⟩

theorem sameExceptContact_setFields (c : CompanyInfo) (e m : String) :
    sameExceptContact c (setContactFields c e m) :=
  ⟨rfl, rfl, rfl, rfl, rfl, rfl, rfl, rfl, rfl, rfl, rfl, rfl, rfl, rfl, rfl⟩

theorem setContactAt_length (l : List CompanyInfo) (j : Nat) (e m : String) :
    (setContactAt l j e m).length = l.length := by
  unfold setContactAt
  cases l.get? j with
  | none => rfl
  | some c => exact List.length_set l j _

theorem setContactAt_frame (l : List CompanyInfo) (j : Nat) (e m : String)
    (i : Nat) (c : CompanyInfo) (hc : l[i]? = some c) :
    ∃ c', (setContactAt l j e m)[i]? = some c' ∧ sameExceptContact c c' := by
  unfold setContactAt
  cases hg : l.get? j with
  | none => exact ⟨c, hc, sameExceptContact_refl c⟩
  | some cj =>
      by_cases hij : j = i
      · subst hij
        rw [List.get?_eq_getElem?, hc] at hg
        injection hg with hg
        subst hg
        have hlt : j < l.length := by
          by_contra hge
          rw [List.getElem?_eq_none (by omega)] at hc
          exact Option.noConfusion hc
        refine ⟨setContactFields c e m, ?_, sameExceptContact_setFields c e m⟩
        simp [List.getElem?_set, hlt]
      · refine ⟨c, ?_, sameExceptContact_refl c⟩
        rw [List.getElem?_set_ne hij]
        exact hc

theorem applyAssigns_length :
    ∀ (assigns : List (Nat × String × String)) (l : List CompanyInfo),
      (applyAssigns l assigns).length = l.length := by
  intro assigns
  induction assigns with
  | nil => intro l; rfl
  | cons a rest ih =>
      intro l
      obtain ⟨j, e, m⟩ := a
      rw [show applyAssigns l ((j, e, m) :: rest)
          = applyAssigns (setContactAt l j e m) rest from rfl,
        ih, setContactAt_length]

theorem applyAssigns_frame :
    ∀ (assigns : List (Nat × String × String)) (l : List CompanyInfo)
      (i : Nat) (c : CompanyInfo), l[i]? = some c →
      ∃ c', (applyAssigns l assigns)[i]? = some c'
        ∧ sameExceptContact c c' := by
  intro assigns
  induction assigns with
  | nil => exact fun l i c hc => ⟨c, hc, sameExceptContact_refl c⟩
  | cons a rest ih =>
      intro l i c hc
      obtain ⟨j, e, m⟩ := a
      obtain ⟨c₀, hc₀, hs₀⟩ := setContactAt_frame l j e m i c hc
      obtain ⟨c', hc', hs'⟩ := ih (setContactAt l j e m) i c₀ hc₀
      exact ⟨c', hc', sameExceptContact_trans hs₀ hs'⟩

theorem cliPollLoop_step (polls : Nat → CliPoll)
    (companies : List CompanyInfo) (idxs : List Nat) (k fuel : Nat) :
    cliPollLoop polls companies idxs k (fuel + 1)
      = (match polls k with
         | .netErr => cliPollLoop polls companies idxs (k + 1) fuel
         | .resp code body =>
             if code = 402 then companies
             else if 400 ≤ code ∧ code < 500 then companies
             else if 400 ≤ code ∧ code < 600 then
               cliPollLoop polls companies idxs (k + 1) fuel
             else if statusOf body = "FINISHED" then
               applyAssigns companies (mkAssigns idxs body.data)
             else if statusOf body = "CANCELED"
                 ∨ statusOf body = "CREDITS_INSUFFICIENT"
                 ∨ statusOf body = "RATE_LIMIT" then companies
             else cliPollLoop polls companies idxs (k + 1) fuel) := rfl

theorem cliPollLoop_cases (polls : Nat → CliPoll)
    (companies : List CompanyInfo) (idxs : List Nat) :
    ∀ (fuel k : Nat),
      cliPollLoop polls companies idxs k fuel = companies
        ∨ ∃ a, cliPollLoop polls companies idxs k fuel
            = applyAssigns companies a := by
  intro fuel
  induction fuel with
  | zero => intro k; exact Or.inl rfl
  | succ f ih =>
      intro k
      rw [cliPollLoop_step]
      split
      · exact ih (k + 1)
      · split
        · exact Or.inl rfl
        · split
          · exact Or.inl rfl
          · split
            · exact ih (k + 1)
            · split
              · exact Or.inr ⟨_, rfl⟩
              · split
                · exact Or.inl rfl
                · exact ih (k + 1)

theorem cliPollLoop_unchanged (polls : Nat → CliPoll)
    (companies : List CompanyInfo) (idxs : List Nat) :
    ∀ (fuel k : Nat), (∀ j, j < fuel → ¬cliPollApplies (polls (k + j))) →
      cliPollLoop polls companies idxs k fuel = companies := by
  intro fuel
  induction fuel with
  | zero => intro k _; rfl
  | succ f ih =>
      intro k h
      have hshift : ∀ j, j < f → ¬cliPollApplies (polls (k + 1 + j)) := by
        intro j hj
        have := h (j + 1) (by omega)
        rwa [show k + (j + 1) = k + 1 + j by omega] at this
      rw [cliPollLoop_step]
      split
      · exact ih (k + 1) hshift
      · rename_i code body hp
        split
        · rfl
        · split
          · rfl
          · split
            · exact ih (k + 1) hshift
            · rename_i h402 h45 h46
              split
              · rename_i hfin
                exfalso
                have h0 := h 0 (by omega)
                rw [show k + 0 = k from rfl, hp] at h0
                exact h0 ⟨h46, hfin⟩
              · split
                · rfl
                · exact ih (k + 1) hshift

theorem cliPollLoop_firstBreak (polls : Nat → CliPoll)
    (companies : List CompanyInfo) (idxs : List Nat) (k fuel : Nat)
    (code : Int) (body : PollBody) (hp : polls k = .resp code body)
    (hbr : code = 402
      ∨ ((400 ≤ code ∧ code < 500) ∧ code ≠ 402)
      ∨ (¬(400 ≤ code ∧ code < 600)
          ∧ (statusOf body = "CANCELED"
              ∨ statusOf body = "CREDITS_INSUFFICIENT"
              ∨ statusOf body = "RATE_LIMIT"))) :
    cliPollLoop polls companies idxs k (fuel + 1) = companies := by
  rw [cliPollLoop_step]
  simp only [hp]
  rcases hbr with h402 | ⟨h4, hne⟩ | ⟨hok, hterm⟩
  · rw [if_pos h402]
  · rw [if_neg hne, if_pos h4]
  · rw [if_neg (fun he => hok (by rw [he]; exact ⟨by norm_num, by norm_num⟩)),
      if_neg (fun hr => hok ⟨hr.1, by omega⟩), if_neg hok,
      if_neg (fun hfin => by
        rcases hterm with h | h | h <;> (rw [hfin] at h; simp at h)),
      if_pos hterm]

theorem enrich_unchanged_of_loop (companies : List CompanyInfo)
    (confirm : Option String) (submit : SubmitResult)
    (polls : Nat → CliPoll)
    (h : ∀ idxs : List Nat,
        cliPollLoop polls companies idxs 0 FULLENRICH_POLL_MAX = companies) :
    enrich_with_fullenrich companies confirm submit polls = companies := by
  simp only [enrich_with_fullenrich]
  split
  · rfl
  · split
    · rfl
    · split
      · rfl
      · split
        · split
          · rfl
          · rfl
          · split
            · exact h _
            · rfl
        · rfl

theorem enrich_cases (companies : List CompanyInfo) (confirm : Option String)
    (submit : SubmitResult) (polls : Nat → CliPoll) :
    enrich_with_fullenrich companies confirm submit polls = companies
      ∨ ∃ a, enrich_with_fullenrich companies confirm submit polls
          = applyAssigns companies a := by
  simp only [enrich_with_fullenrich]
  split
  · exact Or.inl rfl
  · split
    · exact Or.inl rfl
    · split
      · exact Or.inl rfl
      · split
        · split
          · exact Or.inl rfl
          · exact Or.inl rfl
          · split
            · exact cliPollLoop_cases polls companies _ FULLENRICH_POLL_MAX 0
            · exact Or.inl rfl
        · exact Or.inl rfl

/-- Claim C5 counterexample: with a negative result cap (reachable: the CLI
parses `--max-resultats` as a plain int and the web handler's `_int` also
returns negatives), the function returns the empty list, whose length 0 is
not at most `maxResults = -1`, so the unconditional "length at most
maxResults" fails. -/
theorem search_pappers_claim_cex :
    ¬(((search_pappers (-1) (fun _ => PageResp.ok [7] 1)).length : Int)
        ≤ -1) := by decide

/-- Claim C5 (amended): for a nonnegative result cap the registry search
client returns at most `maxResults` records (a non-positive cap yields the
empty list); the result is always a truncation of the ordered concatenation
of a run of non-empty successful pages; a failing or empty first page
yields the empty list; a failure after an accumulated page returns the
accumulated records (truncated); and a page shorter than the page size
`min(100, maxResults)` stops the pagination, the result depending only on
the pages already consumed. -/
theorem search_pappers_characterization {α : Type}
    (pages : Nat → PageResp α) (maxR : Int) :
    (0 ≤ maxR → ((search_pappers maxR pages).length : Int) ≤ maxR)
    ∧ (maxR ≤ 0 → search_pappers maxR pages = [])
    ∧ (∃ m, (∀ j, j < m → okNonempty (pages j))
        ∧ search_pappers maxR pages = pyTake maxR (concatResults pages 0 m))
    ∧ (pages 0 = .fail → search_pappers maxR pages = [])
    ∧ (∀ total : Int, pages 0 = .ok [] total →
        search_pappers maxR pages = [])
    ∧ (∀ (r0 : List α) (t0 : Int), 0 < maxR → pages 0 = .ok r0 t0 →
        r0 ≠ [] → pages 1 = .fail →
        search_pappers maxR pages = pyTake maxR r0)
    ∧ (∀ (r0 : List α) (t0 : Int), 0 < maxR → pages 0 = .ok r0 t0 →
        r0 ≠ [] → (r0.length : Int) < min 100 maxR →
        (search_pappers maxR pages = pyTake maxR r0
          ∧ ∀ pages' : Nat → PageResp α, pages' 0 = pages 0 →
              search_pappers maxR pages' = pyTake maxR r0)) := by
  refine ⟨?_, ?_, ?_, ?_, ?_, ?_, ?_⟩
  · intro h
    exact searchLoop_length_le pages (min 100 maxR) h (maxR.toNat + 1) 0 []
  · intro h
    unfold search_pappers
    rw [searchLoop_step, if_neg (by simp; omega)]
    exact pyTake_nil maxR
  · obtain ⟨m, hok, heq⟩ :=
      searchLoop_accum pages maxR (min 100 maxR) (maxR.toNat + 1) 0 []
    rw [List.nil_append] at heq
    exact ⟨m, fun j hj => (Nat.zero_add j) ▸ hok j hj, heq⟩
  · intro hf
    unfold search_pappers
    rw [searchLoop_step]
    split
    · split
      · exact pyTake_nil maxR
      · rename_i results total hp
        rw [hf] at hp
        exact PageResp.noConfusion hp
    · exact pyTake_nil maxR
  · intro total h0
    unfold search_pappers
    rw [searchLoop_step]
    split
    · split
      · rename_i hp
        rw [h0] at hp
        exact PageResp.noConfusion hp
      · rename_i results total' hp
        rw [h0] at hp
        injection hp with h1 h2
        subst h1
        simp [pyTake_nil]
    · exact pyTake_nil maxR
  · intro r0 t0 hmax h0 hr0 h1
    unfold search_pappers
    rw [searchLoop_step, if_pos (by simpa using hmax)]
    simp only [h0]
    rw [if_neg (by simpa using hr0), List.nil_append]
    by_cases hbr : min t0 maxR - (r0.length : Int) ≤ 0
        ∨ (r0.length : Int) < min 100 maxR
    · rw [if_pos hbr]
    · rw [if_neg hbr]
      have hlen : (r0.length : Int) < maxR := by
        rcases not_or.mp hbr with ⟨hA, _⟩
        omega
      rw [show maxR.toNat = (maxR.toNat - 1) + 1 by omega, searchLoop_step,
        if_pos hlen]
      simp only [h1]
  · intro r0 t0 hmax h0 hr0 hshort
    have aux : ∀ pages'' : Nat → PageResp α,
        pages'' 0 = PageResp.ok r0 t0 →
        search_pappers maxR pages'' = pyTake maxR r0 := by
      intro p hp
      unfold search_pappers
      rw [searchLoop_step, if_pos (by simpa using hmax)]
      simp only [hp]
      rw [if_neg (by simpa using hr0), List.nil_append,
        if_pos (Or.inr hshort)]
    exact ⟨aux pages h0, fun p hp => aux p (by rw [hp, h0])⟩

/-- Witness for C5 (amended) at a concrete two-record short first page with
cap 7. -/
theorem search_pappers_characterization_witness :
    ((search_pappers 7 (fun k =>
        if k = 0 then PageResp.ok [1, 2] 9 else PageResp.fail)).length : Int)
      ≤ 7
    ∧ search_pappers 7 (fun k =>
        if k = 0 then PageResp.ok [1, 2] 9 else PageResp.fail)
      = pyTake 7 [1, 2] :=
  ⟨(search_pappers_characterization _ 7).1 (by norm_num),
   ((search_pappers_characterization
      (fun k => if k = 0 then PageResp.ok [1, 2] 9 else PageResp.fail)
      7).2.2.2.2.2.2 [1, 2] 9 (by norm_num) rfl (by decide)
      (by decide)).1⟩

/-- Witness for C6: birth date `"1970-03-15"` with current year 2024 yields
age 54, and the malformed date `"not-a-date"` yields an empty (falsy) age. -/
theorem extract_age_characterization_witness :
    extractAge dirigeantBorn1970 2024 = .vInt 54
    ∧ (extractAge dirigeantBadDob 2024 = dirigeantBadDob.age
        ∧ (extractAge dirigeantBadDob 2024).truthy = false) := by
  constructor
  · have := extract_age_characterization.2.1 dirigeantBorn1970 2024 1970
      (by decide) (by decide) (by decide)
    simpa using this
  · exact extract_age_characterization.2.2.2.1 dirigeantBadDob 2024
      (by decide) (by decide) (by decide)

/-- Claim C10: the CLI enrichment step has a bounded frame:
`enrich_with_fullenrich` returns a list of the same length and order as its
input, modifying at most the `email_dirigeant` and `mobile_dirigeant`
fields of each record; on user refusal or interruption, on a failed or
rejected submission, on a missing job identifier, and on every poll-stage
failure — a 402, any other 4xx, a terminal status in CANCELED /
CREDITS_INSUFFICIENT / RATE_LIMIT, or a run (such as a timeout) in which no
poll ever returns a successful FINISHED response — the list is returned
exactly as given; and the orchestrator applies enrichment only to the first
`max_enrichissements` records, so every record at or beyond that index is
returned exactly as extracted. -/
theorem enrich_with_fullenrich_frame :
    (∀ (companies : List CompanyInfo) (confirm : Option String)
        (submit : SubmitResult) (polls : Nat → CliPoll),
        (enrich_with_fullenrich companies confirm submit polls).length
          = companies.length)
    ∧ (∀ (companies : List CompanyInfo) (confirm : Option String)
        (submit : SubmitResult) (polls : Nat → CliPoll) (i : Nat)
        (c c' : CompanyInfo),
        companies[i]? = some c →
        (enrich_with_fullenrich companies confirm submit polls)[i]?
          = some c' →
        sameExceptContact c c')
    ∧ (∀ (companies : List CompanyInfo) (submit : SubmitResult)
        (polls : Nat → CliPoll),
        enrich_with_fullenrich companies none submit polls = companies)
    ∧ (∀ (companies : List CompanyInfo) (ans : String)
        (submit : SubmitResult) (polls : Nat → CliPoll),
        ¬(pyLower (pyStrip ans) = "o" ∨ pyLower (pyStrip ans) = "oui"
          ∨ pyLower (pyStrip ans) = "y" ∨ pyLower (pyStrip ans) = "yes") →
        enrich_with_fullenrich companies (some ans) submit polls = companies)
    ∧ (∀ (companies : List CompanyInfo) (confirm : Option String)
        (code : Int) (polls : Nat → CliPoll),
        enrich_with_fullenrich companies confirm (.httpError code) polls
          = companies)
    ∧ (∀ (companies : List CompanyInfo) (confirm : Option String)
        (polls : Nat → CliPoll),
        enrich_with_fullenrich companies confirm .netError polls = companies)
    ∧ (∀ (companies : List CompanyInfo) (confirm : Option String)
        (body : SubmitBody) (polls : Nat → CliPoll),
        (jobIdOf body).truthy = false →
        enrich_with_fullenrich companies confirm (.ok body) polls
          = companies)
    ∧ (∀ (maxE : Int) (companies : List CompanyInfo)
        (confirm : Option String) (submit : SubmitResult)
        (polls : Nat → CliPoll) (i : Nat),
        maxE.toNat ≤ i →
        (mainEnrichStep maxE companies confirm submit polls)[i]?
          = companies[i]?)
    ∧ (∀ (companies : List CompanyInfo) (confirm : Option String)
        (submit : SubmitResult) (polls : Nat → CliPoll) (code : Int)
        (body : PollBody),
        polls 0 = .resp code body → code = 402 →
        enrich_with_fullenrich companies confirm submit polls = companies)
    ∧ (∀ (companies : List CompanyInfo) (confirm : Option String)
        (submit : SubmitResult) (polls : Nat → CliPoll) (code : Int)
        (body : PollBody),
        polls 0 = .resp code body → 400 ≤ code ∧ code < 500 → code ≠ 402 →
        enrich_with_fullenrich companies confirm submit polls = companies)
    ∧ (∀ (companies : List CompanyInfo) (confirm : Option String)
        (submit : SubmitResult) (polls : Nat → CliPoll) (code : Int)
        (body : PollBody),
        polls 0 = .resp code body → ¬(400 ≤ code ∧ code < 600) →
        (statusOf body = "CANCELED"
          ∨ statusOf body = "CREDITS_INSUFFICIENT"
          ∨ statusOf body = "RATE_LIMIT") →
        enrich_with_fullenrich companies confirm submit polls = companies)
    ∧ (∀ (companies : List CompanyInfo) (confirm : Option String)
        (submit : SubmitResult) (polls : Nat → CliPoll),
        (∀ j, j < FULLENRICH_POLL_MAX → ¬cliPollApplies (polls j)) →
        enrich_with_fullenrich companies confirm submit polls
          = companies) := by
  have hlen : ∀ (companies : List CompanyInfo) (confirm : Option String)
      (submit : SubmitResult) (polls : Nat → CliPoll),
      (enrich_with_fullenrich companies confirm submit polls).length
        = companies.length := by
    intro companies confirm submit polls
    rcases enrich_cases companies confirm submit polls with h | ⟨a, h⟩
    · rw [h]
    · rw [h, applyAssigns_length]
  refine ⟨hlen, ?_, ?_, ?_, ?_, ?_, ?_, ?_, ?_, ?_, ?_, ?_⟩
  · intro companies confirm submit polls i c c' hc hc'
    rcases enrich_cases companies confirm submit polls with h | ⟨a, h⟩
    · rw [h, hc] at hc'
      injection hc' with hc'
      subst hc'
      exact sameExceptContact_refl _
    · obtain ⟨c₀, hc₀, hs₀⟩ := applyAssigns_frame a companies i c hc
      rw [h, hc₀] at hc'
      injection hc' with hc'
      subst hc'
      exact hs₀
  · intro companies submit polls
    simp only [enrich_with_fullenrich]
    split
    · rfl
    · split
      · rfl
      · rfl
  · intro companies ans submit polls h
    simp only [enrich_with_fullenrich]
    split
    · rfl
    · split
      · rfl
      · simp [h]
  · intro companies confirm code polls
    rcases enrich_cases companies confirm (.httpError code) polls
      with h | ⟨a, h⟩
    · exact h
    · -- the httpError branch never reaches the poll loop; re-derive directly
      simp only [enrich_with_fullenrich]
      split
      · rfl
      · split
        · rfl
        · split
          · rfl
          · split
            · rfl
            · rfl
  · intro companies confirm polls
    simp only [enrich_with_fullenrich]
    split
    · rfl
    · split
      · rfl
      · split
        · rfl
        · split
          · rfl
          · rfl
  · intro companies confirm body polls h
    simp only [enrich_with_fullenrich]
    split
    · rfl
    · split
      · rfl
      · split
        · rfl
        · split
          · simp [h]
          · rfl
  · intro maxE companies confirm submit polls i hi
    unfold mainEnrichStep
    by_cases hpos : 0 < maxE
    · rw [if_pos hpos]
      have htake : pyTake maxE companies = companies.take maxE.toNat := by
        unfold pyTake
        rw [if_pos (le_of_lt hpos)]
      have hA : (enrich_with_fullenrich (pyTake maxE companies) confirm
          submit polls).length = min maxE.toNat companies.length := by
        rw [hlen, htake, List.length_take]
      have hdrop : pyDrop maxE companies = companies.drop maxE.toNat := by
        unfold pyDrop
        rw [if_pos (le_of_lt hpos)]
      rw [List.getElem?_append_right (by omega), hA, hdrop,
        List.getElem?_drop]
      by_cases hcase : companies.length ≤ maxE.toNat
      · rw [List.getElem?_eq_none
            (show companies.length ≤ maxE.toNat
                + (i - min maxE.toNat companies.length) by omega),
          List.getElem?_eq_none (show companies.length ≤ i by omega)]
      · congr 1
        omega
    · rw [if_neg hpos]
  · intro companies confirm submit polls code body hp h402
    exact enrich_unchanged_of_loop companies confirm submit polls
      (fun idxs => cliPollLoop_firstBreak polls companies idxs 0 39 code body
        hp (Or.inl h402))
  · intro companies confirm submit polls code body hp h4 hne
    exact enrich_unchanged_of_loop companies confirm submit polls
      (fun idxs => cliPollLoop_firstBreak polls companies idxs 0 39 code body
        hp (Or.inr (Or.inl ⟨h4, hne⟩)))
  · intro companies confirm submit polls code body hp hok hterm
    exact enrich_unchanged_of_loop companies confirm submit polls
      (fun idxs => cliPollLoop_firstBreak polls companies idxs 0 39 code body
        hp (Or.inr (Or.inr ⟨hok, hterm⟩)))
  · intro companies confirm submit polls h
    exact enrich_unchanged_of_loop companies confirm submit polls
      (fun idxs => cliPollLoop_unchanged polls companies idxs
        FULLENRICH_POLL_MAX 0 (fun j hj => by simpa using h j hj))

/-- Witness for C10 at a concrete two-record list: enrichment preserves
length, changes only the two contact fields of the enriched record, returns
the list unchanged on an interrupted confirmation, leaves the record beyond
`main`'s `max_enrichissements = 1` untouched, and returns the list exactly
as given both on a 402 poll response and on a run whose polls never reach
FINISHED (timeout). -/
theorem enrich_with_fullenrich_frame_witness :
    (enrich_with_fullenrich [baseCompanyInfo, baseCompanyInfo] (some "o")
        (.ok submitBodyOk) cliPollsFin).length
      = [baseCompanyInfo, baseCompanyInfo].length
    ∧ sameExceptContact baseCompanyInfo
        (setContactFields baseCompanyInfo "jean@acme.fr" "0601020304")
    ∧ enrich_with_fullenrich [baseCompanyInfo] none (.ok submitBodyOk)
        cliPollsFin = [baseCompanyInfo]
    ∧ (mainEnrichStep 1 [baseCompanyInfo, baseCompanyInfo] (some "o")
        (.ok submitBodyOk) cliPollsFin)[1]?
      = [baseCompanyInfo, baseCompanyInfo][1]?
    ∧ enrich_with_fullenrich [baseCompanyInfo] (some "o")
        (.ok submitBodyOk) (fun _ => .resp 402 ⟨some "PENDING", [], 0⟩)
      = [baseCompanyInfo]
    ∧ enrich_with_fullenrich [baseCompanyInfo] (some "o")
        (.ok submitBodyOk) (fun _ => .resp 200 ⟨some "PENDING", [], 0⟩)
      = [baseCompanyInfo] :=
  ⟨enrich_with_fullenrich_frame.1 [baseCompanyInfo, baseCompanyInfo]
      (some "o") (.ok submitBodyOk) cliPollsFin,
   enrich_with_fullenrich_frame.2.1 [baseCompanyInfo, baseCompanyInfo]
      (some "o") (.ok submitBodyOk) cliPollsFin 0 baseCompanyInfo
      (setContactFields baseCompanyInfo "jean@acme.fr" "0601020304")
      (by decide) (by decide),
   enrich_with_fullenrich_frame.2.2.1 [baseCompanyInfo] (.ok submitBodyOk)
      cliPollsFin,
   enrich_with_fullenrich_frame.2.2.2.2.2.2.2.1 1
      [baseCompanyInfo, baseCompanyInfo] (some "o") (.ok submitBodyOk)
      cliPollsFin 1 (by decide),
   enrich_with_fullenrich_frame.2.2.2.2.2.2.2.2.1 [baseCompanyInfo]
      (some "o") (.ok submitBodyOk)
      (fun _ => .resp 402 ⟨some "PENDING", [], 0⟩) 402
      ⟨some "PENDING", [], 0⟩ rfl rfl,
   enrich_with_fullenrich_frame.2.2.2.2.2.2.2.2.2.2.2 [baseCompanyInfo]
      (some "o") (.ok submitBodyOk)
      (fun _ => .resp 200 ⟨some "PENDING", [], 0⟩) (by decide)⟩
